import Mathlib

/-!
# Golf analytics statistics engine: a shallow embedding

This file embeds the five aggregation functions of `src/calculations.py`
(`calculate_scoring_stats`, `calculate_driving_stats`, `calculate_approach_stats`,
`calculate_short_game_stats`, `calculate_putting_stats`) and proves or refutes
the specification claims about them.

Modelling decisions (pandas semantics):
* A DataFrame is a `Table`: a list of column names (`schema`) and a list of
  rows, each row a list of cells aligned with the schema.
* A cell is `Option Val`: `none` models a missing value (NaN); a present value
  is a rational number, a string, or a boolean.
* Accessing a column absent from the schema (`df[c]`) is a `KeyError`: the
  aggregators return `Except String`, and `Except.error` models a raised
  exception.
* Comparisons against NaN are false (`NaN <= x`, `NaN == x` evaluate false);
  arithmetic with NaN yields NaN; `Series.mean()` skips missing values and
  yields NaN (here `StatVal.nan`) when no value is present.
* Column assignment `df[c] = s` mutates the caller's DataFrame; each embedded
  aggregator therefore returns the statistics mapping together with the state
  of the caller's table after the call.
* Floats are modelled by `ℚ` (the computations are sums, counts and divisions,
  exact in `ℚ`); `round(2)` is rounding to two decimals.
* `value_counts` / `groupby` orderings of dictionary keys are abstracted to
  first-occurrence order; no claim observes the ordering of nested mappings.
-/

/-- A value held in a DataFrame cell: a number, a string, or a boolean. -/
inductive Val where
  | num (q : ℚ)
  | str (s : String)
  | bool (b : Bool)
deriving DecidableEq, Repr

/-- A cell: `none` is a missing value (NaN). -/
abbrev Cell := Option Val

/-- A row of a DataFrame, aligned with the schema. -/
abbrev Row := List Cell

/-- A pandas DataFrame: column names plus rows. -/
structure Table where
  schema : List String
  rows : List Row
deriving DecidableEq, Repr

/-- A table is well-formed (rectangular) when every row has exactly one cell
per schema column. -/
def Table.wf (t : Table) : Bool :=
  t.rows.all (fun r => r.length == t.schema.length)

/-- The cells of column `c` (aligned by the schema index of `c`). -/
def colOf (t : Table) (c : String) : List Cell :=
  t.rows.map (fun r => r.getD (t.schema.indexOf c) none)

/-- `df[c]` for a column name `c`: `KeyError` when the column is absent,
otherwise the list of cells of that column. -/
def getCol (t : Table) (c : String) : Except String (List Cell) :=
  if c ∈ t.schema then Except.ok (colOf t c)
  else Except.error ("KeyError: " ++ c)

/-- `df[c] = vals`: overwrite the column if present, append it otherwise
(this mutates the caller's DataFrame in the source). -/
def setCol (t : Table) (c : String) (vals : List Cell) : Table :=
  if c ∈ t.schema then
    ⟨t.schema, List.zipWith (fun r v => r.set (t.schema.indexOf c) v) t.rows vals⟩
  else ⟨t.schema ++ [c], List.zipWith (fun r v => r ++ [v]) t.rows vals⟩

/-- The numeric value of a cell, when present and numeric. -/
def numCell (c : Cell) : Option ℚ :=
  match c with
  | some (Val.num q) => some q
  | _ => none

/-- `(series OP k).sum()`-style counting: the number of cells whose present
numeric value satisfies `p` (NaN comparisons are false). -/
def countNum (xs : List Cell) (p : ℚ → Bool) : Nat :=
  (xs.filterMap numCell).countP p

/-- `series.mean()`: mean of the present numeric values, `none` (NaN) when
there are none. -/
def seriesMean (xs : List Cell) : Option ℚ :=
  let vs := xs.filterMap numCell
  if vs.length = 0 then none else some (vs.sum / (vs.length : ℚ))

/-- Rounding to two decimals (`Series.round(2)` / `float.round(2)`). -/
def round2 (q : ℚ) : ℚ := ((round (q * 100) : ℤ) : ℚ) / 100

/-- A statistic value: a number, NaN, a flat category→percentage mapping
(`value_counts`), or a nested mapping whose values may be NaN (`groupby`
means, `par_N_driving` blocks). -/
inductive StatVal where
  | num (q : ℚ)
  | nan
  | dist (m : List (String × ℚ))
  | group (m : List (String × Option ℚ))
deriving DecidableEq, Repr

/-- The output of one aggregator: an insertion-ordered mapping. -/
abbrev Stats := List (String × StatVal)

/-- Mean result as a statistic: NaN when no value was present. -/
def statOfMean (o : Option ℚ) : StatVal :=
  match o with
  | some q => StatVal.num q
  | none => StatVal.nan

/-- Look a key up in a stats mapping (first binding; keys are unique). -/
def findStat (s : Stats) (k : String) : Option StatVal :=
  match s with
  | [] => none
  | (a, v) :: rest => if a = k then some v else findStat rest k

/-- Difference of two cells: NaN when either side is missing. -/
def cellSub (a b : Cell) : Cell :=
  match numCell a, numCell b with
  | some x, some y => some (Val.num (x - y))
  | _, _ => none

/-- Sum of two cells: NaN when either side is missing. -/
def cellAdd (a b : Cell) : Cell :=
  match numCell a, numCell b with
  | some x, some y => some (Val.num (x + y))
  | _, _ => none

/-- A numeric function on one cell, NaN passing through. -/
def cellMapNum (f : ℚ → ℚ) (c : Cell) : Cell :=
  match numCell c with
  | some v => some (Val.num (f v))
  | none => none

/-- `<=` of two cells: false when either side is missing (NaN comparisons
evaluate false). -/
def cellLEB (a b : Cell) : Bool :=
  match numCell a, numCell b with
  | some x, some y => decide (x ≤ y)
  | _, _ => false

/-- `>` of two cells, false on missing values. -/
def cellGTB (a b : Cell) : Bool :=
  match numCell a, numCell b with
  | some x, some y => decide (y < x)
  | _, _ => false

/-- Elementwise difference of two series. -/
def seriesSub (xs ys : List Cell) : List Cell :=
  List.zipWith cellSub xs ys

/-- Elementwise sum of two series. -/
def seriesAdd (xs ys : List Cell) : List Cell :=
  List.zipWith cellAdd xs ys

/-- Map a numeric function over a series, NaN passing through. -/
def seriesMapNum (f : ℚ → ℚ) (xs : List Cell) : List Cell :=
  xs.map (cellMapNum f)

/-- Elementwise `<=` of two series as booleans. -/
def seriesLE (xs ys : List Cell) : List Bool :=
  List.zipWith cellLEB xs ys

/-- Elementwise `>` of two series as booleans. -/
def seriesGT (xs ys : List Cell) : List Bool :=
  List.zipWith cellGTB xs ys

/-- Boolean-mask selection: keep the entries whose mask bit is true. -/
def maskKeep {α : Type} : List Bool → List α → List α
  | true :: m, x :: xs => x :: maskKeep m xs
  | false :: m, _ :: xs => maskKeep m xs
  | _, _ => []

/-- `df[mask]`: keep the rows whose mask entry is true. -/
def filterRows (t : Table) (mask : List Bool) : Table :=
  ⟨t.schema, maskKeep mask t.rows⟩

/-- Restrict one column by a row mask. -/
def maskFilter (mask : List Bool) (xs : List Cell) : List Cell :=
  maskKeep mask xs

/-- The present values of a series, in row order. -/
def presentVals (xs : List Cell) : List Val :=
  xs.filterMap id

/-- First-occurrence deduplication of a list of values. -/
def dedupVals (xs : List Val) : List Val :=
  xs.foldl (fun acc v => if v ∈ acc then acc else acc ++ [v]) []

/-- The label pandas would print for a category value. -/
def valLabel (v : Val) : String :=
  match v with
  | Val.str s => s
  | Val.num q => toString q
  | Val.bool b => toString b

/-- `series.value_counts(normalize=True) * 100 |>.to_dict()`: share of each
distinct present value among the present values. -/
def valueCountsPct (xs : List Cell) : List (String × ℚ) :=
  let vs := presentVals xs
  (dedupVals vs).map (fun v => (valLabel v, (vs.count v : ℚ) / (vs.length : ℚ) * 100))

/-- `df.groupby(keys)[vals].mean().to_dict()`: mean of `vals` per distinct
present key (a group whose values are all missing yields NaN). -/
def groupMeans (keys vals : List Cell) : List (String × Option ℚ) :=
  (dedupVals (presentVals keys)).map (fun k =>
    (valLabel k,
      seriesMean ((keys.zip vals).filterMap
        (fun x => if x.1 = some k then some x.2 else none))))

/-- The group of `vals` cells on rows whose `keys` cell equals `p`
(`df[df["Par"] == p][col]`). -/
def parGroup (keys vals : List Cell) (p : ℚ) : List Cell :=
  (keys.zip vals).filterMap
    (fun x => if numCell x.1 = some p then some x.2 else none)

/-- `f"par_{p}{tail}"`. -/
def parKey (p : Nat) (tail : String) : String :=
  "par_" ++ toString p ++ tail

/-- `avg_strokes_by_par.get(p, 0)` where
`avg_strokes_by_par = df.groupby("Par")["Strokes"].mean().round(2)`:
0 when no row has Par = p, otherwise the rounded group mean (NaN when every
Strokes value in the group is missing). -/
def avgStrokesStat (parCol strokesCol : List Cell) (p : ℚ) : StatVal :=
  let grp := parGroup parCol strokesCol p
  if grp.isEmpty then StatVal.num 0
  else
    match seriesMean grp with
    | some q => StatVal.num (round2 q)
    | none => StatVal.nan

/-- One `par_{p}` block of the strokes score distribution
(lines 35-47 of `calculations.py`): empty when the par group is empty. -/
def scoreVsParSection (parCol svpCol : List Cell) (p : Nat) : Stats :=
  let grp := parGroup parCol svpCol (p : ℚ)
  if grp.isEmpty then []
  else
    let n : ℚ := grp.length
    [ (parKey p "_par_or_better_pct",
        StatVal.num ((countNum grp (fun v => decide (v ≤ 0)) : ℚ) / n * 100)),
      (parKey p "_bogey_pct",
        StatVal.num ((countNum grp (fun v => decide (v = 1)) : ℚ) / n * 100)),
      (parKey p "_double_bogey_plus_pct",
        StatVal.num ((countNum grp (fun v => decide (2 ≤ v)) : ℚ) / n * 100)) ]

/-- One `par_{p}` block of the Stableford score distribution
(lines 50-62 of `calculations.py`): empty when the par group is empty. -/
def stablefordSection (parCol scoreCol : List Cell) (p : Nat) : Stats :=
  let grp := parGroup parCol scoreCol (p : ℚ)
  if grp.isEmpty then []
  else
    let n : ℚ := grp.length
    [ (parKey p "_2_plus_points_pct",
        StatVal.num ((countNum grp (fun v => decide (2 ≤ v)) : ℚ) / n * 100)),
      (parKey p "_1_point_pct",
        StatVal.num ((countNum grp (fun v => decide (v = 1)) : ℚ) / n * 100)),
      (parKey p "_0_points_pct",
        StatVal.num ((countNum grp (fun v => decide (v = 0)) : ℚ) / n * 100)) ]

/-- `calculate_scoring_stats` (lines 6-64 of `calculations.py`). Returns the
stats mapping and the caller's table after the call: line 33
(`df["Score vs Par"] = df["Strokes"] - df["Par"]`) adds a column to the
caller's DataFrame. -/
def calculate_scoring_stats (df : Table) : Except String (Stats × Table) := do
  if df.rows.isEmpty then
    return ([], df)
  let parCol ← getCol df "Par"
  let strokesCol ← getCol df "Strokes"
  let avgStats : Stats :=
    [ ("avg_strokes_par_3", avgStrokesStat parCol strokesCol 3),
      ("avg_strokes_par_4", avgStrokesStat parCol strokesCol 4),
      ("avg_strokes_par_5", avgStrokesStat parCol strokesCol 5) ]
  let scoreCol ← getCol df "Score"
  let avgSb : Stats :=
    [ ("avg_stableford_points",
        match seriesMean scoreCol with
        | some q => StatVal.num (round2 q)
        | none => StatVal.nan) ]
  let svp := seriesSub strokesCol parCol
  let df1 := setCol df "Score vs Par" svp
  let svpSections :=
    scoreVsParSection parCol svp 3 ++ scoreVsParSection parCol svp 4 ++
      scoreVsParSection parCol svp 5
  let sbSections :=
    stablefordSection parCol scoreCol 3 ++ stablefordSection parCol scoreCol 4 ++
      stablefordSection parCol scoreCol 5
  return (avgStats ++ avgSb ++ svpSections ++ sbSections, df1)

/-- Shorthand: a present numeric cell. -/
def vN (q : ℚ) : Cell := some (Val.num q)

/-- Shorthand: a present string cell. -/
def vS (s : String) : Cell := some (Val.str s)

/-- The sample table of `tests/test_calculations.py` (`sample_clean_df`). -/
def sampleT : Table :=
  ⟨[ "Par", "Strokes", "Score", "Shots", "FIR", "Tee Shot Location",
     "Tee Shot Distance", "GIR", "Approach Location", "Putts",
     "Shots Inside 100y" ],
   [ [vN 4, vN 4, vN 3, vN 2, vN 1, vS "Fairway", vN 200, vN 0, vS "Short", vN 1, vN 1],
     [vN 3, vN 3, vN 3, vN 1, none, none, none, vN 1, vS "Green", vN 1, vN 0],
     [vN 4, vN 7, vN 1, vN 1, vN 0, vS "Right", vN 220, vN 0, vS "Right", vN 2, vN 2],
     [vN 5, vN 5, vN 2, vN 2, vN 1, vS "Fairway", vN 250, vN 1, vS "Green", vN 2, vN 0],
     [vN 4, vN 4, vN 2, vN 1, vN 1, vS "Fairway", vN 210, vN 1, vS "Green", vN 1, vN 0],
     [vN 5, vN 7, vN 1, vN 2, vN 0, vS "OB Right", vN 230, vN 0, vS "Long", vN 3, vN 2] ]⟩


/-- `Par.isin([4, 5])` on one cell: false on missing or non-matching values. -/
def inPar45 (c : Cell) : Bool :=
  decide (numCell c = some 4) || decide (numCell c = some 5)

/-- `location.str.startswith("OB", na=False)` on one cell: false on a missing
or non-string value. -/
def startsOB (c : Cell) : Bool :=
  match c with
  | some (Val.str s) => s.startsWith "OB"
  | _ => false

/-- The `par_{p}_driving` block (lines 106-118 of `calculations.py`),
computed over the Par-4/5 restricted columns: empty when the `Par == p`
subset is empty. -/
def drivingParSection (parColD firColD locColD distColD : List Cell) (p : Nat) :
    Stats :=
  let mask := parColD.map (fun c => decide (numCell c = some (p : ℚ)))
  let fir := maskFilter mask firColD
  let loc := maskFilter mask locColD
  let dist := maskFilter mask distColD
  let n := mask.count true
  if n = 0 then []
  else
    [ (parKey p "_driving",
       StatVal.group
         [ ("fir_pct", some ((countNum fir (fun v => decide (v = 1)) : ℚ) / (n : ℚ) * 100)),
           ("ball_in_play_rate_pct",
             some ((loc.countP (fun c => !startsOB c) : ℚ) / (n : ℚ) * 100)),
           ("avg_distance", seriesMean dist) ]) ]

/-- `calculate_driving_stats` (lines 67-120 of `calculations.py`). The
function works on a `.copy()` of the Par-4/5 restriction, so the caller's
table is returned unchanged. -/
def calculate_driving_stats (df : Table) : Except String (Stats × Table) := do
  let parCol ← getCol df "Par"
  let drive_df := filterRows df (parCol.map inPar45)
  if drive_df.rows.isEmpty then
    return ([], df)
  let total : ℚ := drive_df.rows.length
  let firCol ← getCol drive_df "FIR"
  let locCol ← getCol drive_df "Tee Shot Location"
  let rates : Stats :=
    [ ("fir_pct",
        StatVal.num ((countNum firCol (fun v => decide (v = 1)) : ℚ) / total * 100)),
      ("ball_in_play_rate_pct",
        StatVal.num ((locCol.countP (fun c => !startsOB c) : ℚ) / total * 100)),
      ("dispersion", StatVal.dist (valueCountsPct locCol)) ]
  let distCol ← getCol drive_df "Tee Shot Distance"
  let distances : Stats :=
    [ ("avg_drive_distance", statOfMean (seriesMean distCol)),
      ("avg_dist_by_location", StatVal.group (groupMeans locCol distCol)) ]
  let parColD ← getCol drive_df "Par"
  let sections :=
    drivingParSection parColD firCol locCol distCol 4 ++
      drivingParSection parColD firCol locCol distCol 5
  return (rates ++ distances ++ sections, df)

/-- `calculate_approach_stats` (lines 123-153 of `calculations.py`). No
column of the caller's table is assigned, so the table is returned
unchanged. -/
def calculate_approach_stats (df : Table) : Except String (Stats × Table) := do
  if df.rows.isEmpty then
    return ([], df)
  let total : ℚ := df.rows.length
  let girCol ← getCol df "GIR"
  let girStat :=
    match seriesMean girCol with
    | some q => StatVal.num (q * 100)
    | none => StatVal.nan
  let strokesCol ← getCol df "Strokes"
  let puttsCol ← getCol df "Putts"
  let strokes_to_green := seriesSub strokesCol puttsCol
  let parCol ← getCol df "Par"
  let shotsCol ← getCol df "Shots"
  let regulation_target := seriesAdd (seriesMapNum (fun v => v - 2) parCol) shotsCol
  let handicap_gir : ℚ := (seriesLE strokes_to_green regulation_target).count true
  let appLocCol ← getCol df "Approach Location"
  return (
    [ ("gir_pct", girStat),
      ("handicap_gir_pct", StatVal.num (handicap_gir / total * 100)),
      ("approach_dispersion", StatVal.dist (valueCountsPct appLocCol)) ], df)

/-- Row-level `Strokes - Shots ≤ Par` with NaN comparisons false. -/
def netParOrBetter (strokes shots par : Cell) : Bool :=
  match numCell strokes, numCell shots, numCell par with
  | some x, some y, some z => decide (x - y ≤ z)
  | _, _, _ => false

/-- `calculate_short_game_stats` (lines 156-203 of `calculations.py`). No
column of the caller's table is assigned, so the table is returned
unchanged. -/
def calculate_short_game_stats (df : Table) : Except String (Stats × Table) := do
  if df.rows.isEmpty then
    return ([], df)
  let s100Col ← getCol df "Shots Inside 100y"
  let maskIn := s100Col.map (fun c =>
    match numCell c with
    | some v => decide (0 < v)
    | none => false)
  let inside100 := maskFilter maskIn s100Col
  let part1 : Stats :=
    if inside100.isEmpty then []
    else [("avg_strokes_to_green_inside_100y", statOfMean (seriesMean inside100))]
  let girCol ← getCol df "GIR"
  let missed_gir := filterRows df (girCol.map (fun c => decide (numCell c = some 0)))
  let part2 : Stats ←
    if missed_gir.rows.isEmpty then pure []
    else do
      let mStrokes ← getCol missed_gir "Strokes"
      let mPar ← getCol missed_gir "Par"
      let scrambled := (seriesLE mStrokes mPar).count true
      pure [("scrambling_pct",
        StatVal.num ((scrambled : ℚ) / (missed_gir.rows.length : ℚ) * 100))]
  let strokesCol ← getCol df "Strokes"
  let puttsCol ← getCol df "Putts"
  let strokes_to_green := seriesSub strokesCol puttsCol
  let parCol ← getCol df "Par"
  let shotsCol ← getCol df "Shots"
  let regulation_target := seriesAdd (seriesMapNum (fun v => v - 2) parCol) shotsCol
  let maskMissedH := seriesGT strokes_to_green regulation_target
  let mhStrokes := maskFilter maskMissedH strokesCol
  let mhShots := maskFilter maskMissedH shotsCol
  let mhPar := maskFilter maskMissedH parCol
  let part3 : Stats :=
    if mhStrokes.isEmpty then []
    else
      let net := ((mhStrokes.zip mhShots).zip mhPar).countP
        (fun x => netParOrBetter x.1.1 x.1.2 x.2)
      [("handicap_scrambling_pct",
        StatVal.num ((net : ℚ) / (mhStrokes.length : ℚ) * 100))]
  let part4 : Stats :=
    if inside100.isEmpty then []
    else
      let inPutts := maskFilter maskIn puttsCol
      [("short_game_score", statOfMean (seriesMean (seriesAdd inside100 inPutts)))]
  return (part1 ++ part2 ++ part3 ++ part4, df)

/-- `calculate_putting_stats` (lines 206-255 of `calculations.py`). Returns
the stats mapping and the caller's table after the call: line 243
(`df["is_handicap_gir"] = ...`) adds a boolean column to the caller's
DataFrame. -/
def calculate_putting_stats (df : Table) : Except String (Stats × Table) := do
  if df.rows.isEmpty ∨ "Putts" ∉ df.schema then
    return ([], df)
  let total : ℚ := df.rows.length
  let puttsCol ← getCol df "Putts"
  let base : Stats :=
    [ ("avg_putts_per_hole", statOfMean (seriesMean puttsCol)),
      ("three_putt_avoidance_pct",
        StatVal.num ((countNum puttsCol (fun v => decide (v ≤ 2)) : ℚ) / total * 100)),
      ("1_putt_pct",
        StatVal.num ((countNum puttsCol (fun v => decide (v = 1)) : ℚ) / total * 100)),
      ("2_putt_pct",
        StatVal.num ((countNum puttsCol (fun v => decide (v = 2)) : ℚ) / total * 100)),
      ("3_plus_putt_pct",
        StatVal.num ((countNum puttsCol (fun v => decide (3 ≤ v)) : ℚ) / total * 100)) ]
  let girCol ← getCol df "GIR"
  let girPutts := maskFilter (girCol.map (fun c => decide (numCell c = some 1))) puttsCol
  let missedPutts := maskFilter (girCol.map (fun c => decide (numCell c = some 0))) puttsCol
  let girPart : Stats :=
    (if girPutts.isEmpty then []
     else [("avg_putts_per_gir", statOfMean (seriesMean girPutts))]) ++
    (if missedPutts.isEmpty then []
     else [("avg_putts_per_missed_gir", statOfMean (seriesMean missedPutts))])
  let strokesCol ← getCol df "Strokes"
  let strokes_to_green := seriesSub strokesCol puttsCol
  let parCol ← getCol df "Par"
  let shotsCol ← getCol df "Shots"
  let regulation_target := seriesAdd (seriesMapNum (fun v => v - 2) parCol) shotsCol
  let hmask := seriesLE strokes_to_green regulation_target
  let df1 := setCol df "is_handicap_gir" (hmask.map (fun b => some (Val.bool b)))
  let hPutts := maskFilter hmask puttsCol
  let mhPutts := maskFilter (hmask.map (fun b => !b)) puttsCol
  let hPart : Stats :=
    (if hPutts.isEmpty then []
     else [("avg_putts_per_handicap_gir", statOfMean (seriesMean hPutts))]) ++
    (if mhPutts.isEmpty then []
     else [("avg_putts_per_missed_handicap_gir", statOfMean (seriesMean mhPutts))])
  return (base ++ girPart ++ hPart, df1)


/-- Did the call raise (model of an uncaught Python exception)? -/
def isError (e : Except String (Stats × Table)) : Bool :=
  match e with
  | Except.error _ => true
  | Except.ok _ => false

theorem getCol_mem {t : Table} {c : String} (h : c ∈ t.schema) :
    getCol t c = Except.ok (colOf t c) := by
  simp [getCol, h]

theorem getCol_not_mem {t : Table} {c : String} (h : c ∉ t.schema) :
    getCol t c = Except.error ("KeyError: " ++ c) := by
  simp [getCol, h]

theorem colOf_length (t : Table) (c : String) :
    (colOf t c).length = t.rows.length := by
  simp [colOf]

theorem isEmpty_false_of_ne {α : Type} {l : List α} (h : l ≠ []) :
    l.isEmpty = false := by
  cases l with
  | nil => exact absurd rfl h
  | cons a l => rfl

theorem findStat_append_none {k : String} {l₁ : Stats} (l₂ : Stats)
    (h : findStat l₁ k = none) : findStat (l₁ ++ l₂) k = findStat l₂ k := by
  induction l₁ with
  | nil => rfl
  | cons p l ih =>
    cases p with
    | mk a v =>
      by_cases hk : a = k
      · simp [findStat, hk] at h
      · simp only [findStat, List.cons_append] at h ⊢
        rw [if_neg hk] at h ⊢
        exact ih h

theorem findStat_append_some {k : String} {l₁ : Stats} (l₂ : Stats) {v : StatVal}
    (h : findStat l₁ k = some v) : findStat (l₁ ++ l₂) k = some v := by
  induction l₁ with
  | nil => simp [findStat] at h
  | cons p l ih =>
    cases p with
    | mk a w =>
      by_cases hk : a = k
      · simp only [findStat, List.cons_append] at h ⊢
        rw [if_pos hk] at h ⊢
        exact h
      · simp only [findStat, List.cons_append] at h ⊢
        rw [if_neg hk] at h ⊢
        exact ih h

theorem maskKeep_length {α : Type} {mask : List Bool} {xs : List α}
    (h : xs.length = mask.length) :
    (maskKeep mask xs).length = mask.count true := by
  induction mask generalizing xs with
  | nil =>
    cases xs with
    | nil => rfl
    | cons a l => simp at h
  | cons b m ih =>
    cases xs with
    | nil => simp at h
    | cons a l =>
      simp only [List.length_cons, Nat.succ.injEq] at h
      cases b with
      | true => simp [maskKeep, List.count_cons, ih h]
      | false => simp [maskKeep, List.count_cons, ih h]

/-- C4: for an input table with no data rows (its schema, per the input
contract, containing the Par column that the Driving Aggregator accesses
before its own emptiness check), every one of the five aggregators returns
the empty mapping, does not raise, and leaves the table unchanged. -/
theorem empty_table_all_aggregators_ok (t : Table) (h : t.rows = [])
    (hp : "Par" ∈ t.schema) :
    calculate_scoring_stats t = Except.ok ([], t) ∧
    calculate_driving_stats t = Except.ok ([], t) ∧
    calculate_approach_stats t = Except.ok ([], t) ∧
    calculate_short_game_stats t = Except.ok ([], t) ∧
    calculate_putting_stats t = Except.ok ([], t) := by
  have hcol : colOf t "Par" = [] := by simp [colOf, h]
  refine ⟨?_, ?_, ?_, ?_, ?_⟩
  · simp [calculate_scoring_stats, h, pure, Except.pure]
  · simp [calculate_driving_stats, getCol_mem hp, hcol, h, filterRows, maskKeep,
      bind, Except.bind, pure, Except.pure]
  · simp [calculate_approach_stats, h, pure, Except.pure]
  · simp [calculate_short_game_stats, h, pure, Except.pure]
  · simp [calculate_putting_stats, h, pure, Except.pure]

/-- C4 witness: the conclusion at the concrete zero-row table with schema
`["Par"]`. -/
theorem empty_table_all_aggregators_ok_witness :
    calculate_scoring_stats ⟨["Par"], []⟩ = Except.ok ([], ⟨["Par"], []⟩) ∧
    calculate_driving_stats ⟨["Par"], []⟩ = Except.ok ([], ⟨["Par"], []⟩) ∧
    calculate_approach_stats ⟨["Par"], []⟩ = Except.ok ([], ⟨["Par"], []⟩) ∧
    calculate_short_game_stats ⟨["Par"], []⟩ = Except.ok ([], ⟨["Par"], []⟩) ∧
    calculate_putting_stats ⟨["Par"], []⟩ = Except.ok ([], ⟨["Par"], []⟩) :=
  empty_table_all_aggregators_ok ⟨["Par"], []⟩ rfl (by decide)

/-- Per-row handicap-GIR classification as the spec states it: all of
Strokes, Putts, Par, Shots present and `Strokes − Putts ≤ Par − 2 + Shots`;
a row with any of the four missing is never classified as a handicap GIR. -/
def hgirRow (strokes putts par shots : Cell) : Bool :=
  match numCell strokes, numCell putts, numCell par, numCell shots with
  | some a, some b, some c, some d => decide (a - b ≤ c - 2 + d)
  | _, _, _, _ => false

/-- The number of handicap-GIR rows of a table, counted row by row. -/
def hgirCountT (t : Table) : Nat :=
  (((colOf t "Strokes").zip (colOf t "Putts")).zip
      ((colOf t "Par").zip (colOf t "Shots"))).countP
    (fun x => hgirRow x.1.1 x.1.2 x.2.1 x.2.2)

theorem cellLE_sub_add (a b c d : Cell) :
    cellLEB (cellSub a b) (cellAdd (cellMapNum (fun v => v - 2) c) d) =
      hgirRow a b c d := by
  cases ha : numCell a <;> cases hbv : numCell b <;>
    cases hcv : numCell c <;> cases hdv : numCell d <;>
    simp only [cellLEB, cellSub, cellAdd, cellMapNum, hgirRow,
      ha, hbv, hcv, hdv] <;>
    simp [numCell]

theorem seriesLE_hgir_count (as : List Cell) (bs cs ds : List Cell)
    (hb : as.length = bs.length) (hc : as.length = cs.length)
    (hd : as.length = ds.length) :
    (seriesLE (seriesSub as bs)
        (seriesAdd (seriesMapNum (fun v => v - 2) cs) ds)).count true =
      ((as.zip bs).zip (cs.zip ds)).countP
        (fun x => hgirRow x.1.1 x.1.2 x.2.1 x.2.2) := by
  induction as generalizing bs cs ds with
  | nil =>
    cases bs with
    | cons b bs => simp at hb
    | nil =>
      cases cs with
      | cons c cs => simp at hc
      | nil =>
        cases ds with
        | cons d ds => simp at hd
        | nil => rfl
  | cons a as ih =>
    cases bs with
    | nil => simp at hb
    | cons b bs =>
      cases cs with
      | nil => simp at hc
      | cons c cs =>
        cases ds with
        | nil => simp at hd
        | cons d ds =>
          simp only [List.length_cons, Nat.succ.injEq] at hb hc hd
          have ihh := ih bs cs ds hb hc hd
          simp only [seriesSub, seriesAdd, seriesMapNum, seriesLE] at ihh
          simp only [seriesSub, seriesAdd, seriesMapNum, seriesLE,
            List.zipWith_cons_cons, List.map_cons, List.zip_cons_cons,
            List.countP_cons, List.count_cons, cellLE_sub_add, beq_iff_eq,
            ihh]

/-- Success form of the Approach Aggregator on a non-empty table having all
the columns it touches. -/
theorem approach_ok_form (t : Table) (hne : t.rows ≠ [])
    (hg : "GIR" ∈ t.schema) (hs : "Strokes" ∈ t.schema)
    (hpu : "Putts" ∈ t.schema) (hpar : "Par" ∈ t.schema)
    (hsh : "Shots" ∈ t.schema) (hal : "Approach Location" ∈ t.schema) :
    calculate_approach_stats t = Except.ok (
      [ ("gir_pct",
          match seriesMean (colOf t "GIR") with
          | some q => StatVal.num (q * 100)
          | none => StatVal.nan),
        ("handicap_gir_pct",
          StatVal.num
            (((seriesLE (seriesSub (colOf t "Strokes") (colOf t "Putts"))
                (seriesAdd (seriesMapNum (fun v => v - 2) (colOf t "Par"))
                  (colOf t "Shots"))).count true : ℚ) /
              (t.rows.length : ℚ) * 100)),
        ("approach_dispersion",
          StatVal.dist (valueCountsPct (colOf t "Approach Location"))) ], t) := by
  simp [calculate_approach_stats, isEmpty_false_of_ne hne, getCol_mem hg,
    getCol_mem hs, getCol_mem hpu, getCol_mem hpar, getCol_mem hsh,
    getCol_mem hal, bind, Except.bind, pure, Except.pure]

/-- C5: on every non-empty table (with the columns the Approach Aggregator
touches), `handicap_gir_pct` equals 100 times the number of rows with
`Strokes − Putts ≤ Par − 2 + Shots` divided by the total number of rows,
and a row with a missing Strokes, Putts, Par, or Shots value never
satisfies the condition (it counts as a miss while staying in the
denominator). -/
theorem approach_handicap_gir_pct_correct (t : Table) (hne : t.rows ≠ [])
    (hg : "GIR" ∈ t.schema) (hs : "Strokes" ∈ t.schema)
    (hpu : "Putts" ∈ t.schema) (hpar : "Par" ∈ t.schema)
    (hsh : "Shots" ∈ t.schema) (hal : "Approach Location" ∈ t.schema) :
    (∃ m, calculate_approach_stats t = Except.ok (m, t) ∧
      findStat m "handicap_gir_pct" =
        some (StatVal.num (100 * (hgirCountT t : ℚ) / (t.rows.length : ℚ)))) ∧
    (∀ s p c d : Cell,
      (numCell s = none ∨ numCell p = none ∨ numCell c = none ∨
        numCell d = none) → hgirRow s p c d = false) := by
  constructor
  · refine ⟨_, approach_ok_form t hne hg hs hpu hpar hsh hal, ?_⟩
    have hcnt := seriesLE_hgir_count (colOf t "Strokes") (colOf t "Putts")
      (colOf t "Par") (colOf t "Shots") (by simp [colOf_length])
      (by simp [colOf_length]) (by simp [colOf_length])
    have hval : ((seriesLE (seriesSub (colOf t "Strokes") (colOf t "Putts"))
        (seriesAdd (seriesMapNum (fun v => v - 2) (colOf t "Par"))
          (colOf t "Shots"))).count true : ℚ) /
        (t.rows.length : ℚ) * 100 =
        100 * (hgirCountT t : ℚ) / (t.rows.length : ℚ) := by
      rw [hcnt]
      unfold hgirCountT
      ring
    simp [findStat, hval]
  · intro s p c d hmiss
    cases h1 : numCell s <;> cases h2 : numCell p <;>
      cases h3 : numCell c <;> cases h4 : numCell d <;>
      simp only [hgirRow, h1, h2, h3, h4] <;> simp_all

/-- C5 witness: the theorem applied to the sample table of the test suite
(`handicap_gir_pct` there is 100·5/6). -/
theorem approach_handicap_gir_pct_correct_witness :
    (∃ m, calculate_approach_stats sampleT = Except.ok (m, sampleT) ∧
      findStat m "handicap_gir_pct" =
        some (StatVal.num
          (100 * (hgirCountT sampleT : ℚ) / (sampleT.rows.length : ℚ)))) ∧
    (∀ s p c d : Cell,
      (numCell s = none ∨ numCell p = none ∨ numCell c = none ∨
        numCell d = none) → hgirRow s p c d = false) :=
  approach_handicap_gir_pct_correct sampleT (by decide) (by decide)
    (by decide) (by decide) (by decide) (by decide) (by decide)

theorem countP_congr_my {α : Type} {p q : α → Bool} (xs : List α)
    (h : ∀ a ∈ xs, p a = q a) : xs.countP p = xs.countP q := by
  induction xs with
  | nil => rfl
  | cons a l ih =>
    have ha := h a (List.mem_cons_self a l)
    simp only [List.countP_cons, ha, ih (fun b hb => h b (List.mem_cons_of_mem a hb))]

theorem countNum_eq_countP (xs : List Cell) (p : ℚ → Bool) :
    countNum xs p = xs.countP (fun c =>
      match numCell c with
      | some v => p v
      | none => false) := by
  induction xs with
  | nil => rfl
  | cons a l ih =>
    simp only [countNum] at ih ⊢
    cases h : numCell a <;>
      simp [List.filterMap_cons, h, List.countP_cons, ih]

/-- The Par-4/Par-5 restriction the Driving Aggregator works on. -/
def drivePar45 (t : Table) : Table :=
  filterRows t ((colOf t "Par").map inPar45)

/-- The spec's in-play predicate: the Tee Shot Location does not start with
the case-sensitive string "OB"; a missing (or non-string) location counts
as in-play. -/
def inPlay (c : Cell) : Bool :=
  match c with
  | some (Val.str s) => !(s.startsWith "OB")
  | _ => true

theorem not_startsOB_eq_inPlay (c : Cell) : (!startsOB c) = inPlay c := by
  cases c with
  | none => rfl
  | some v => cases v <;> rfl

/-- The spec's fairway-hit predicate: the FIR cell is the number 1; a
missing FIR value is not a hit. -/
def firHit (c : Cell) : Bool :=
  decide (c = some (Val.num 1))

theorem countNum_one_eq_firHit (xs : List Cell) :
    countNum xs (fun v => decide (v = 1)) = xs.countP firHit := by
  rw [countNum_eq_countP]
  refine countP_congr_my xs (fun a _ => ?_)
  cases a with
  | none => rfl
  | some v =>
    cases v with
    | num q => simp [numCell, firHit]
    | str s => simp [numCell, firHit]
    | bool b => simp [numCell, firHit]

/-- Success form of the Driving Aggregator when the Par column exists, the
Par-4/5 restriction is non-empty, and the other tee-shot columns exist. -/
theorem driving_ok_form (t : Table) (hpar : "Par" ∈ t.schema)
    (hne2 : (filterRows t ((colOf t "Par").map inPar45)).rows ≠ [])
    (hf : "FIR" ∈ t.schema) (hl : "Tee Shot Location" ∈ t.schema)
    (hd : "Tee Shot Distance" ∈ t.schema) :
    calculate_driving_stats t = Except.ok (
      [ ("fir_pct",
          StatVal.num
            ((countNum (colOf (filterRows t ((colOf t "Par").map inPar45)) "FIR")
                (fun v => decide (v = 1)) : ℚ) /
              ((filterRows t ((colOf t "Par").map inPar45)).rows.length : ℚ) * 100)),
        ("ball_in_play_rate_pct",
          StatVal.num
            (((colOf (filterRows t ((colOf t "Par").map inPar45))
                  "Tee Shot Location").countP (fun c => !startsOB c) : ℚ) /
              ((filterRows t ((colOf t "Par").map inPar45)).rows.length : ℚ) * 100)),
        ("dispersion",
          StatVal.dist (valueCountsPct
            (colOf (filterRows t ((colOf t "Par").map inPar45)) "Tee Shot Location"))) ] ++
      ([ ("avg_drive_distance",
          statOfMean (seriesMean
            (colOf (filterRows t ((colOf t "Par").map inPar45)) "Tee Shot Distance"))),
        ("avg_dist_by_location",
          StatVal.group (groupMeans
            (colOf (filterRows t ((colOf t "Par").map inPar45)) "Tee Shot Location")
            (colOf (filterRows t ((colOf t "Par").map inPar45)) "Tee Shot Distance"))) ] ++
      (drivingParSection
          (colOf (filterRows t ((colOf t "Par").map inPar45)) "Par")
          (colOf (filterRows t ((colOf t "Par").map inPar45)) "FIR")
          (colOf (filterRows t ((colOf t "Par").map inPar45)) "Tee Shot Location")
          (colOf (filterRows t ((colOf t "Par").map inPar45)) "Tee Shot Distance") 4 ++
        drivingParSection
          (colOf (filterRows t ((colOf t "Par").map inPar45)) "Par")
          (colOf (filterRows t ((colOf t "Par").map inPar45)) "FIR")
          (colOf (filterRows t ((colOf t "Par").map inPar45)) "Tee Shot Location")
          (colOf (filterRows t ((colOf t "Par").map inPar45)) "Tee Shot Distance") 5)), t) := by
  simp [calculate_driving_stats, getCol_mem hpar, isEmpty_false_of_ne hne2,
    getCol_mem (show "FIR" ∈ (filterRows t ((colOf t "Par").map inPar45)).schema from hf),
    getCol_mem (show "Tee Shot Location" ∈
      (filterRows t ((colOf t "Par").map inPar45)).schema from hl),
    getCol_mem (show "Tee Shot Distance" ∈
      (filterRows t ((colOf t "Par").map inPar45)).schema from hd),
    getCol_mem (show "Par" ∈
      (filterRows t ((colOf t "Par").map inPar45)).schema from hpar),
    bind, Except.bind, pure, Except.pure]

/-- C7: on every table whose Par-4/5 restriction is non-empty (and that has
the tee-shot columns), `ball_in_play_rate_pct` equals 100 times the number
of restricted holes whose Tee Shot Location does not start with the
case-sensitive string "OB", divided by the number of restricted holes; a
missing location counts as in-play (`inPlay none = true`). -/
theorem driving_ball_in_play_correct (t : Table) (hpar : "Par" ∈ t.schema)
    (hne2 : (filterRows t ((colOf t "Par").map inPar45)).rows ≠ [])
    (hf : "FIR" ∈ t.schema) (hl : "Tee Shot Location" ∈ t.schema)
    (hd : "Tee Shot Distance" ∈ t.schema) :
    (∃ m, calculate_driving_stats t = Except.ok (m, t) ∧
      findStat m "ball_in_play_rate_pct" =
        some (StatVal.num
          (100 * ((colOf (drivePar45 t) "Tee Shot Location").countP inPlay : ℚ) /
            ((drivePar45 t).rows.length : ℚ)))) ∧
    inPlay none = true := by
  refine ⟨?_, rfl⟩
  simp only [drivePar45]
  refine ⟨_, driving_ok_form t hpar hne2 hf hl hd, ?_⟩
  have hval :
      (((colOf (filterRows t ((colOf t "Par").map inPar45))
          "Tee Shot Location").countP (fun c => !startsOB c) : ℚ) /
        ((filterRows t ((colOf t "Par").map inPar45)).rows.length : ℚ) * 100) =
      100 * ((colOf (filterRows t ((colOf t "Par").map inPar45))
          "Tee Shot Location").countP inPlay : ℚ) /
        ((filterRows t ((colOf t "Par").map inPar45)).rows.length : ℚ) := by
    rw [countP_congr_my _ (fun a _ => not_startsOB_eq_inPlay a)]
    ring
  simp [findStat, hval]

/-- C7 witness: the theorem applied to the sample table (`80 = 100·4/5`
there). -/
theorem driving_ball_in_play_correct_witness :
    (∃ m, calculate_driving_stats sampleT = Except.ok (m, sampleT) ∧
      findStat m "ball_in_play_rate_pct" =
        some (StatVal.num
          (100 * ((colOf (drivePar45 sampleT) "Tee Shot Location").countP inPlay : ℚ) /
            ((drivePar45 sampleT).rows.length : ℚ)))) ∧
    inPlay none = true :=
  driving_ball_in_play_correct sampleT (by decide) (by decide) (by decide)
    (by decide) (by decide)

/-- C8: on every table whose Par-4/5 restriction is non-empty (and that has
the tee-shot columns), `fir_pct` equals 100 times the number of restricted
holes whose FIR value is 1, divided by the number of ALL restricted holes;
a missing FIR value stays in the denominator but is not a hit
(`firHit none = false`). -/
theorem driving_fir_pct_correct (t : Table) (hpar : "Par" ∈ t.schema)
    (hne2 : (filterRows t ((colOf t "Par").map inPar45)).rows ≠ [])
    (hf : "FIR" ∈ t.schema) (hl : "Tee Shot Location" ∈ t.schema)
    (hd : "Tee Shot Distance" ∈ t.schema) :
    (∃ m, calculate_driving_stats t = Except.ok (m, t) ∧
      findStat m "fir_pct" =
        some (StatVal.num
          (100 * ((colOf (drivePar45 t) "FIR").countP firHit : ℚ) /
            ((drivePar45 t).rows.length : ℚ)))) ∧
    firHit none = false := by
  refine ⟨?_, rfl⟩
  simp only [drivePar45]
  refine ⟨_, driving_ok_form t hpar hne2 hf hl hd, ?_⟩
  have hval :
      ((countNum (colOf (filterRows t ((colOf t "Par").map inPar45)) "FIR")
          (fun v => decide (v = 1)) : ℚ) /
        ((filterRows t ((colOf t "Par").map inPar45)).rows.length : ℚ) * 100) =
      100 * ((colOf (filterRows t ((colOf t "Par").map inPar45)) "FIR").countP firHit : ℚ) /
        ((filterRows t ((colOf t "Par").map inPar45)).rows.length : ℚ) := by
    rw [countNum_one_eq_firHit]
    ring
  simp [findStat, hval]

/-- C8 witness: the theorem applied to the sample table (`60 = 100·3/5`
there). -/
theorem driving_fir_pct_correct_witness :
    (∃ m, calculate_driving_stats sampleT = Except.ok (m, sampleT) ∧
      findStat m "fir_pct" =
        some (StatVal.num
          (100 * ((colOf (drivePar45 sampleT) "FIR").countP firHit : ℚ) /
            ((drivePar45 sampleT).rows.length : ℚ)))) ∧
    firHit none = false :=
  driving_fir_pct_correct sampleT (by decide) (by decide) (by decide)
    (by decide) (by decide)

/-- The five unconditional putting statistics (lines 222-230 of
`calculations.py`). -/
def puttingBase (t : Table) : Stats :=
  [ ("avg_putts_per_hole", statOfMean (seriesMean (colOf t "Putts"))),
    ("three_putt_avoidance_pct",
      StatVal.num ((countNum (colOf t "Putts") (fun v => decide (v ≤ 2)) : ℚ) /
        (t.rows.length : ℚ) * 100)),
    ("1_putt_pct",
      StatVal.num ((countNum (colOf t "Putts") (fun v => decide (v = 1)) : ℚ) /
        (t.rows.length : ℚ) * 100)),
    ("2_putt_pct",
      StatVal.num ((countNum (colOf t "Putts") (fun v => decide (v = 2)) : ℚ) /
        (t.rows.length : ℚ) * 100)),
    ("3_plus_putt_pct",
      StatVal.num ((countNum (colOf t "Putts") (fun v => decide (3 ≤ v)) : ℚ) /
        (t.rows.length : ℚ) * 100)) ]

/-- The raw-GIR putting split (lines 232-238): rows whose GIR is neither 1
nor 0 (e.g. missing) fall in neither side. -/
def puttingGirPart (t : Table) : Stats :=
  (if (maskFilter ((colOf t "GIR").map (fun c => decide (numCell c = some 1)))
        (colOf t "Putts")).isEmpty then []
   else [("avg_putts_per_gir",
     statOfMean (seriesMean (maskFilter
       ((colOf t "GIR").map (fun c => decide (numCell c = some 1)))
       (colOf t "Putts"))))]) ++
  (if (maskFilter ((colOf t "GIR").map (fun c => decide (numCell c = some 0)))
        (colOf t "Putts")).isEmpty then []
   else [("avg_putts_per_missed_gir",
     statOfMean (seriesMean (maskFilter
       ((colOf t "GIR").map (fun c => decide (numCell c = some 0)))
       (colOf t "Putts"))))])

/-- The boolean `is_handicap_gir` column (line 243): false on any missing
field. -/
def puttingHMask (t : Table) : List Bool :=
  seriesLE (seriesSub (colOf t "Strokes") (colOf t "Putts"))
    (seriesAdd (seriesMapNum (fun v => v - 2) (colOf t "Par")) (colOf t "Shots"))

/-- The handicap-GIR putting split (lines 245-253): every row falls on
exactly one side of the boolean mask. -/
def puttingHPart (t : Table) : Stats :=
  (if (maskFilter (puttingHMask t) (colOf t "Putts")).isEmpty then []
   else [("avg_putts_per_handicap_gir",
     statOfMean (seriesMean (maskFilter (puttingHMask t) (colOf t "Putts"))))]) ++
  (if (maskFilter ((puttingHMask t).map (fun b => !b)) (colOf t "Putts")).isEmpty then []
   else [("avg_putts_per_missed_handicap_gir",
     statOfMean (seriesMean
       (maskFilter ((puttingHMask t).map (fun b => !b)) (colOf t "Putts"))))])

/-- Success form of the Putting Aggregator on a non-empty table having the
Putts column and the columns of both GIR splits. -/
theorem putting_ok_form (t : Table) (hne : t.rows ≠ [])
    (hpt : "Putts" ∈ t.schema) (hg : "GIR" ∈ t.schema)
    (hs : "Strokes" ∈ t.schema) (hpar : "Par" ∈ t.schema)
    (hsh : "Shots" ∈ t.schema) :
    calculate_putting_stats t = Except.ok
      (puttingBase t ++ (puttingGirPart t ++ puttingHPart t),
       setCol t "is_handicap_gir"
         ((puttingHMask t).map (fun b => some (Val.bool b)))) := by
  simp [calculate_putting_stats, isEmpty_false_of_ne hne, hpt, getCol_mem hpt,
    getCol_mem hg, getCol_mem hs, getCol_mem hpar, getCol_mem hsh,
    puttingBase, puttingGirPart, puttingHPart, puttingHMask,
    bind, Except.bind, pure, Except.pure]

theorem count_not_map (mask : List Bool) :
    (mask.map (fun b => !b)).count true = mask.count false := by
  induction mask with
  | nil => rfl
  | cons b m ih => cases b <;> simp [List.count_cons, ih]

theorem count_true_add_false (mask : List Bool) :
    mask.count true + mask.count false = mask.length := by
  induction mask with
  | nil => rfl
  | cons b m ih => cases b <;> simp [List.count_cons, ih] <;> omega

theorem count_true_map_eq_countP {α : Type} (p : α → Bool) (xs : List α) :
    (xs.map p).count true = xs.countP p := by
  induction xs with
  | nil => rfl
  | cons a l ih => cases h : p a <;> simp [List.count_cons, List.countP_cons, h, ih]

theorem countP_three_way {α : Type} (p q : α → Bool) (xs : List α)
    (h : ∀ a, ¬(p a = true ∧ q a = true)) :
    xs.countP p + xs.countP q + xs.countP (fun a => !p a && !q a) = xs.length := by
  induction xs with
  | nil => rfl
  | cons a l ih =>
    cases hp : p a <;> cases hq : q a
    · simp only [List.countP_cons, hp, hq, List.length_cons]
      simp
      omega
    · simp only [List.countP_cons, hp, hq, List.length_cons]
      simp
      omega
    · simp only [List.countP_cons, hp, hq, List.length_cons]
      simp
      omega
    · exact absurd ⟨hp, hq⟩ (h a)

theorem puttingHMask_length (t : Table) :
    (puttingHMask t).length = t.rows.length := by
  simp [puttingHMask, seriesLE, seriesSub, seriesAdd, seriesMapNum,
    List.length_zipWith, colOf_length]

/-- C9: the Putting Aggregator yields the empty mapping exactly when the
table is empty or lacks a Putts column; on every non-empty table with a
Putts column (and the columns of the GIR splits, which it dereferences
unconditionally) the mapping contains `avg_putts_per_hole`,
`three_putt_avoidance_pct` and the three putt-distribution keys. -/
theorem putting_empty_mapping_iff (t : Table)
    (hg : "GIR" ∈ t.schema) (hs : "Strokes" ∈ t.schema)
    (hpar : "Par" ∈ t.schema) (hsh : "Shots" ∈ t.schema) :
    ∃ m t2, calculate_putting_stats t = Except.ok (m, t2) ∧
      (m = [] ↔ (t.rows = [] ∨ "Putts" ∉ t.schema)) ∧
      (t.rows ≠ [] → "Putts" ∈ t.schema →
        ((findStat m "avg_putts_per_hole").isSome ∧
         (findStat m "three_putt_avoidance_pct").isSome ∧
         (findStat m "1_putt_pct").isSome ∧
         (findStat m "2_putt_pct").isSome ∧
         (findStat m "3_plus_putt_pct").isSome)) := by
  by_cases hcase : t.rows = [] ∨ "Putts" ∉ t.schema
  · refine ⟨[], t, ?_, by simp [hcase], by tauto⟩
    rcases hcase with h | h
    · simp [calculate_putting_stats, h, pure, Except.pure]
    · simp [calculate_putting_stats, h, pure, Except.pure]
  · push_neg at hcase
    obtain ⟨hne, hpt⟩ := hcase
    refine ⟨_, _, putting_ok_form t hne hpt hg hs hpar hsh, ?_, ?_⟩
    · constructor
      · intro hm
        simp [puttingBase] at hm
      · intro hc
        rcases hc with h | h
        · exact (hne h).elim
        · exact (h hpt).elim
    · intro _ _
      refine ⟨?_, ?_, ?_, ?_, ?_⟩ <;> simp [puttingBase, findStat]

/-- C9 witness: the theorem applied to the sample table. -/
theorem putting_empty_mapping_iff_witness :
    ∃ m t2, calculate_putting_stats sampleT = Except.ok (m, t2) ∧
      (m = [] ↔ (sampleT.rows = [] ∨ "Putts" ∉ sampleT.schema)) ∧
      (sampleT.rows ≠ [] → "Putts" ∈ sampleT.schema →
        ((findStat m "avg_putts_per_hole").isSome ∧
         (findStat m "three_putt_avoidance_pct").isSome ∧
         (findStat m "1_putt_pct").isSome ∧
         (findStat m "2_putt_pct").isSome ∧
         (findStat m "3_plus_putt_pct").isSome)) :=
  putting_empty_mapping_iff sampleT (by decide) (by decide) (by decide)
    (by decide)

/-- C10: the `is_handicap_gir` split of the Putting Aggregator partitions
the whole table — the two restricted row sets have sizes summing to the
total row count, a row with a missing Strokes/Putts/Par/Shots value gets a
false mask bit (so lands on the missed side), and on a non-empty table at
least one of the two average keys is present — whereas the raw-GIR split
keeps only rows with GIR equal to 1 or 0, dropping the rest from both
sides. -/
theorem putting_handicap_split_partition (t : Table) (hne : t.rows ≠ [])
    (hpt : "Putts" ∈ t.schema) (hg : "GIR" ∈ t.schema)
    (hs : "Strokes" ∈ t.schema) (hpar : "Par" ∈ t.schema)
    (hsh : "Shots" ∈ t.schema) :
    ∃ m t2, calculate_putting_stats t = Except.ok (m, t2) ∧
      ((maskFilter (puttingHMask t) (colOf t "Putts")).length +
        (maskFilter ((puttingHMask t).map (fun b => !b)) (colOf t "Putts")).length
          = t.rows.length) ∧
      ((findStat m "avg_putts_per_handicap_gir").isSome ∨
        (findStat m "avg_putts_per_missed_handicap_gir").isSome) ∧
      (∀ a b c d : Cell,
        (numCell a = none ∨ numCell b = none ∨ numCell c = none ∨
          numCell d = none) →
          cellLEB (cellSub a b) (cellAdd (cellMapNum (fun v => v - 2) c) d)
            = false) ∧
      ((maskFilter ((colOf t "GIR").map (fun c => decide (numCell c = some 1)))
          (colOf t "Putts")).length +
        (maskFilter ((colOf t "GIR").map (fun c => decide (numCell c = some 0)))
          (colOf t "Putts")).length +
        (colOf t "GIR").countP (fun c =>
          !(decide (numCell c = some 1)) && !(decide (numCell c = some 0)))
          = t.rows.length) := by
  have hlenP : (colOf t "Putts").length = (puttingHMask t).length := by
    rw [puttingHMask_length, colOf_length]
  have h1 : (maskFilter (puttingHMask t) (colOf t "Putts")).length =
      (puttingHMask t).count true := maskKeep_length hlenP
  have h2 : (maskFilter ((puttingHMask t).map (fun b => !b))
      (colOf t "Putts")).length = ((puttingHMask t).map (fun b => !b)).count true :=
    maskKeep_length (by simpa using hlenP)
  have hsum : (maskFilter (puttingHMask t) (colOf t "Putts")).length +
      (maskFilter ((puttingHMask t).map (fun b => !b)) (colOf t "Putts")).length
        = t.rows.length := by
    rw [h1, h2, count_not_map, count_true_add_false, puttingHMask_length]
  refine ⟨_, _, putting_ok_form t hne hpt hg hs hpar hsh, hsum, ?_, ?_, ?_⟩
  · have hb1 : findStat (puttingBase t) "avg_putts_per_handicap_gir" = none := by
      simp [puttingBase, findStat]
    have hb2 : findStat (puttingBase t) "avg_putts_per_missed_handicap_gir" = none := by
      simp [puttingBase, findStat]
    have hgir1 : findStat (puttingGirPart t) "avg_putts_per_handicap_gir" = none := by
      unfold puttingGirPart
      split <;> split <;> simp [findStat]
    have hgir2 : findStat (puttingGirPart t) "avg_putts_per_missed_handicap_gir" = none := by
      unfold puttingGirPart
      split <;> split <;> simp [findStat]
    by_cases hH : (maskFilter (puttingHMask t) (colOf t "Putts")).isEmpty
    · right
      have hmne : maskFilter ((puttingHMask t).map (fun b => !b))
          (colOf t "Putts") ≠ [] := by
        intro hmt
        rw [List.isEmpty_iff] at hH
        rw [hH, hmt] at hsum
        simp at hsum
        exact hne (List.length_eq_zero.mp hsum.symm)
      rw [findStat_append_none _ hb2, findStat_append_none _ hgir2]
      unfold puttingHPart
      rw [if_pos hH, if_neg (by simpa [List.isEmpty_iff] using hmne)]
      simp [findStat]
    · left
      rw [findStat_append_none _ hb1, findStat_append_none _ hgir1]
      unfold puttingHPart
      rw [if_neg (by simpa [List.isEmpty_iff] using hH)]
      simp [findStat]
  · intro a b c d hmiss
    rw [cellLE_sub_add]
    cases ha : numCell a <;> cases hb : numCell b <;>
      cases hc : numCell c <;> cases hd : numCell d <;>
      simp only [hgirRow, ha, hb, hc, hd] <;> simp_all
  · have hg1 : (maskFilter ((colOf t "GIR").map
        (fun c => decide (numCell c = some 1))) (colOf t "Putts")).length =
        ((colOf t "GIR").map (fun c => decide (numCell c = some 1))).count true :=
      maskKeep_length (by simp [colOf_length])
    have hg0 : (maskFilter ((colOf t "GIR").map
        (fun c => decide (numCell c = some 0))) (colOf t "Putts")).length =
        ((colOf t "GIR").map (fun c => decide (numCell c = some 0))).count true :=
      maskKeep_length (by simp [colOf_length])
    rw [hg1, hg0, count_true_map_eq_countP, count_true_map_eq_countP]
    rw [countP_three_way (fun c => decide (numCell c = some 1))
      (fun c => decide (numCell c = some 0)) (colOf t "GIR") ?_, colOf_length]
    intro a ha
    rcases ha with ⟨ha1, ha0⟩
    simp only [decide_eq_true_eq] at ha1 ha0
    rw [ha1] at ha0
    simp at ha0

/-- C10 witness: the theorem applied to the sample table (5 + 1 = 6 rows).
-/
theorem putting_handicap_split_partition_witness :
    ∃ m t2, calculate_putting_stats sampleT = Except.ok (m, t2) ∧
      ((maskFilter (puttingHMask sampleT) (colOf sampleT "Putts")).length +
        (maskFilter ((puttingHMask sampleT).map (fun b => !b))
          (colOf sampleT "Putts")).length = sampleT.rows.length) ∧
      ((findStat m "avg_putts_per_handicap_gir").isSome ∨
        (findStat m "avg_putts_per_missed_handicap_gir").isSome) ∧
      (∀ a b c d : Cell,
        (numCell a = none ∨ numCell b = none ∨ numCell c = none ∨
          numCell d = none) →
          cellLEB (cellSub a b) (cellAdd (cellMapNum (fun v => v - 2) c) d)
            = false) ∧
      ((maskFilter ((colOf sampleT "GIR").map
          (fun c => decide (numCell c = some 1)))
          (colOf sampleT "Putts")).length +
        (maskFilter ((colOf sampleT "GIR").map
          (fun c => decide (numCell c = some 0)))
          (colOf sampleT "Putts")).length +
        (colOf sampleT "GIR").countP (fun c =>
          !(decide (numCell c = some 1)) && !(decide (numCell c = some 0)))
          = sampleT.rows.length) :=
  putting_handicap_split_partition sampleT (by decide) (by decide) (by decide)
    (by decide) (by decide) (by decide)

/-- Success form of the Scoring Aggregator on a non-empty table having the
Par, Strokes and Score columns. -/
theorem scoring_ok_form (t : Table) (hne : t.rows ≠ [])
    (hpar : "Par" ∈ t.schema) (hs : "Strokes" ∈ t.schema)
    (hsc : "Score" ∈ t.schema) :
    calculate_scoring_stats t = Except.ok (
      [ ("avg_strokes_par_3", avgStrokesStat (colOf t "Par") (colOf t "Strokes") 3),
        ("avg_strokes_par_4", avgStrokesStat (colOf t "Par") (colOf t "Strokes") 4),
        ("avg_strokes_par_5", avgStrokesStat (colOf t "Par") (colOf t "Strokes") 5) ] ++
      ([ ("avg_stableford_points",
          match seriesMean (colOf t "Score") with
          | some q => StatVal.num (round2 q)
          | none => StatVal.nan) ] ++
      ((scoreVsParSection (colOf t "Par")
          (seriesSub (colOf t "Strokes") (colOf t "Par")) 3 ++
        (scoreVsParSection (colOf t "Par")
          (seriesSub (colOf t "Strokes") (colOf t "Par")) 4 ++
        scoreVsParSection (colOf t "Par")
          (seriesSub (colOf t "Strokes") (colOf t "Par")) 5)) ++
      (stablefordSection (colOf t "Par") (colOf t "Score") 3 ++
        (stablefordSection (colOf t "Par") (colOf t "Score") 4 ++
        stablefordSection (colOf t "Par") (colOf t "Score") 5)))),
      setCol t "Score vs Par" (seriesSub (colOf t "Strokes") (colOf t "Par"))) := by
  simp [calculate_scoring_stats, isEmpty_false_of_ne hne, getCol_mem hpar,
    getCol_mem hs, getCol_mem hsc, bind, Except.bind, pure, Except.pure]

/-- For integer-valued cells, par-or-better / bogey / double-bogey-plus is
an exact three-way partition. -/
theorem countNum_partition_svp (xs : List Cell)
    (h : ∀ c ∈ xs, ∃ z : ℤ, numCell c = some (z : ℚ)) :
    countNum xs (fun v => decide (v ≤ 0)) + countNum xs (fun v => decide (v = 1)) +
      countNum xs (fun v => decide (2 ≤ v)) = xs.length := by
  induction xs with
  | nil => rfl
  | cons a l ih =>
    obtain ⟨z, hz⟩ := h a (List.mem_cons_self a l)
    have hrest := ih (fun c hc => h c (List.mem_cons_of_mem a hc))
    simp only [countNum, List.filterMap_cons, hz, List.countP_cons,
      List.length_cons] at hrest ⊢
    rcases (show z ≤ 0 ∨ z = 1 ∨ 2 ≤ z by omega) with h1 | h1 | h1
    · have e1 : decide ((z : ℚ) ≤ 0) = true :=
        decide_eq_true (by exact_mod_cast h1)
      have e2 : decide ((z : ℚ) = 1) = false :=
        decide_eq_false (fun he => by
          have hzz : z = 1 := by exact_mod_cast he
          omega)
      have e3 : decide ((2 : ℚ) ≤ (z : ℚ)) = false :=
        decide_eq_false (fun he => by
          have hzz : (2 : ℤ) ≤ z := by exact_mod_cast he
          omega)
      rw [e1, e2, e3]
      simp
      omega
    · have e1 : decide ((z : ℚ) ≤ 0) = false :=
        decide_eq_false (fun he => by
          have hzz : z ≤ 0 := by exact_mod_cast he
          omega)
      have e2 : decide ((z : ℚ) = 1) = true :=
        decide_eq_true (by exact_mod_cast h1)
      have e3 : decide ((2 : ℚ) ≤ (z : ℚ)) = false :=
        decide_eq_false (fun he => by
          have hzz : (2 : ℤ) ≤ z := by exact_mod_cast he
          omega)
      rw [e1, e2, e3]
      simp
      omega
    · have e1 : decide ((z : ℚ) ≤ 0) = false :=
        decide_eq_false (fun he => by
          have hzz : z ≤ 0 := by exact_mod_cast he
          omega)
      have e2 : decide ((z : ℚ) = 1) = false :=
        decide_eq_false (fun he => by
          have hzz : z = 1 := by exact_mod_cast he
          omega)
      have e3 : decide ((2 : ℚ) ≤ (z : ℚ)) = true :=
        decide_eq_true (by exact_mod_cast h1)
      rw [e1, e2, e3]
      simp
      omega

/-- For integer-valued cells all at least 1, the 1-putt / 2-putt /
3-plus-putt split is an exact three-way partition. -/
theorem countNum_partition_putts (xs : List Cell)
    (h : ∀ c ∈ xs, ∃ z : ℤ, 1 ≤ z ∧ numCell c = some (z : ℚ)) :
    countNum xs (fun v => decide (v = 1)) + countNum xs (fun v => decide (v = 2)) +
      countNum xs (fun v => decide (3 ≤ v)) = xs.length := by
  induction xs with
  | nil => rfl
  | cons a l ih =>
    obtain ⟨z, hz1, hz⟩ := h a (List.mem_cons_self a l)
    have hrest := ih (fun c hc => h c (List.mem_cons_of_mem a hc))
    simp only [countNum, List.filterMap_cons, hz, List.countP_cons,
      List.length_cons] at hrest ⊢
    rcases (show z = 1 ∨ z = 2 ∨ 3 ≤ z by omega) with h1 | h1 | h1
    · have e1 : decide ((z : ℚ) = 1) = true :=
        decide_eq_true (by exact_mod_cast h1)
      have e2 : decide ((z : ℚ) = 2) = false :=
        decide_eq_false (fun he => by
          have hzz : z = 2 := by exact_mod_cast he
          omega)
      have e3 : decide ((3 : ℚ) ≤ (z : ℚ)) = false :=
        decide_eq_false (fun he => by
          have hzz : (3 : ℤ) ≤ z := by exact_mod_cast he
          omega)
      rw [e1, e2, e3]
      simp
      omega
    · have e1 : decide ((z : ℚ) = 1) = false :=
        decide_eq_false (fun he => by
          have hzz : z = 1 := by exact_mod_cast he
          omega)
      have e2 : decide ((z : ℚ) = 2) = true :=
        decide_eq_true (by exact_mod_cast h1)
      have e3 : decide ((3 : ℚ) ≤ (z : ℚ)) = false :=
        decide_eq_false (fun he => by
          have hzz : (3 : ℤ) ≤ z := by exact_mod_cast he
          omega)
      rw [e1, e2, e3]
      simp
      omega
    · have e1 : decide ((z : ℚ) = 1) = false :=
        decide_eq_false (fun he => by
          have hzz : z = 1 := by exact_mod_cast he
          omega)
      have e2 : decide ((z : ℚ) = 2) = false :=
        decide_eq_false (fun he => by
          have hzz : z = 2 := by exact_mod_cast he
          omega)
      have e3 : decide ((3 : ℚ) ≤ (z : ℚ)) = true :=
        decide_eq_true (by exact_mod_cast h1)
      rw [e1, e2, e3]
      simp
      omega

theorem string_append_cancel_left {x a b : String} (h : x ++ a = x ++ b) :
    a = b := by
  cases x with
  | mk dx =>
    cases a with
    | mk da =>
      cases b with
      | mk db =>
        have hd : dx ++ da = dx ++ db := by
          have h2 := congrArg String.data h
          simpa [String.data] using h2
        have h3 : da = db := List.append_cancel_left hd
        rw [h3]

theorem parKey_tail_inj {q : Nat} {s1 s2 : String} (h : parKey q s1 = parKey q s2) :
    s1 = s2 := by
  unfold parKey at h
  exact string_append_cancel_left h

theorem findStat_cons_ne {a : String} {v : StatVal} {rest : Stats} {k : String}
    (h : a ≠ k) : findStat ((a, v) :: rest) k = findStat rest k := by
  simp [findStat, h]

theorem findStat_cons_eq {a : String} {v : StatVal} {rest : Stats} :
    findStat ((a, v) :: rest) a = some v := by
  simp [findStat]

theorem parGroup_mem {keys vals : List Cell} {p : ℚ} {c : Cell}
    (h : c ∈ parGroup keys vals p) : c ∈ vals := by
  unfold parGroup at h
  rw [List.mem_filterMap] at h
  obtain ⟨x, hx, hfx⟩ := h
  obtain ⟨x1, x2⟩ := x
  by_cases hc : numCell x1 = some p
  · rw [if_pos hc] at hfx
    rw [← Option.some.inj hfx]
    exact (List.of_mem_zip hx).2
  · rw [if_neg hc] at hfx
    exact absurd hfx (by simp)

theorem seriesSub_int (as : List Cell) :
    ∀ bs : List Cell, (∀ c ∈ as, ∃ z : ℤ, numCell c = some (z : ℚ)) →
      (∀ c ∈ bs, ∃ z : ℤ, numCell c = some (z : ℚ)) →
      ∀ c ∈ seriesSub as bs, ∃ z : ℤ, numCell c = some (z : ℚ) := by
  induction as with
  | nil =>
    intro bs ha hb c hc
    simp [seriesSub] at hc
  | cons a as ih =>
    intro bs ha hb c hc
    cases bs with
    | nil => simp [seriesSub] at hc
    | cons b bs =>
      simp only [seriesSub, List.zipWith_cons_cons, List.mem_cons] at hc
      rcases hc with rfl | hc
      · obtain ⟨za, hza⟩ := ha a (List.mem_cons_self a as)
        obtain ⟨zb, hzb⟩ := hb b (List.mem_cons_self b bs)
        refine ⟨za - zb, ?_⟩
        simp only [cellSub, hza, hzb]
        simp [numCell]
      · exact ih bs (fun x hx => ha x (List.mem_cons_of_mem a hx))
          (fun x hx => hb x (List.mem_cons_of_mem b hx)) c hc

theorem triple_div_sum_100 {a b c n : ℕ} (hn : n ≠ 0) (hsum : a + b + c = n) :
    (a : ℚ) / (n : ℚ) * 100 + (b : ℚ) / (n : ℚ) * 100 +
      (c : ℚ) / (n : ℚ) * 100 = 100 := by
  have hq : (a : ℚ) + (b : ℚ) + (c : ℚ) = (n : ℚ) := by exact_mod_cast hsum
  have hnq : (n : ℚ) ≠ 0 := Nat.cast_ne_zero.mpr hn
  field_simp
  linarith

/-- In a non-empty par group of integer score-vs-par values, the three
distribution keys of that group's section hold percentages summing to
100. -/
theorem svpSection_triple (parCol svp : List Cell) (q : Nat)
    (hgroup : parGroup parCol svp (q : ℚ) ≠ [])
    (hint : ∀ c ∈ parGroup parCol svp (q : ℚ), ∃ z : ℤ, numCell c = some (z : ℚ)) :
    ∃ a b c : ℚ,
      findStat (scoreVsParSection parCol svp q) (parKey q "_par_or_better_pct")
        = some (StatVal.num a) ∧
      findStat (scoreVsParSection parCol svp q) (parKey q "_bogey_pct")
        = some (StatVal.num b) ∧
      findStat (scoreVsParSection parCol svp q) (parKey q "_double_bogey_plus_pct")
        = some (StatVal.num c) ∧
      a + b + c = 100 := by
  have hne0 : (parGroup parCol svp (q : ℚ)).length ≠ 0 := by
    simpa [List.length_eq_zero] using hgroup
  refine ⟨_, _, _, ?_, ?_, ?_,
    triple_div_sum_100 hne0 (countNum_partition_svp _ hint)⟩
  · unfold scoreVsParSection
    rw [if_neg (by simpa [List.isEmpty_iff] using hgroup)]
    exact findStat_cons_eq
  · unfold scoreVsParSection
    rw [if_neg (by simpa [List.isEmpty_iff] using hgroup)]
    rw [findStat_cons_ne (fun h => by
      have := parKey_tail_inj h
      exact absurd this (by decide))]
    exact findStat_cons_eq
  · unfold scoreVsParSection
    rw [if_neg (by simpa [List.isEmpty_iff] using hgroup)]
    rw [findStat_cons_ne (fun h => by
      have := parKey_tail_inj h
      exact absurd this (by decide))]
    rw [findStat_cons_ne (fun h => by
      have := parKey_tail_inj h
      exact absurd this (by decide))]
    exact findStat_cons_eq

/-- Lookup of a foreign key in a score-vs-par section is always `none`. -/
theorem findStat_svpSection_none (parCol svp : List Cell) (q : Nat) (k : String)
    (h1 : parKey q "_par_or_better_pct" ≠ k) (h2 : parKey q "_bogey_pct" ≠ k)
    (h3 : parKey q "_double_bogey_plus_pct" ≠ k) :
    findStat (scoreVsParSection parCol svp q) k = none := by
  unfold scoreVsParSection
  by_cases hgrp : (parGroup parCol svp (q : ℚ)).isEmpty = true
  · rw [if_pos hgrp]
    rfl
  · rw [if_neg hgrp]
    rw [findStat_cons_ne h1, findStat_cons_ne h2, findStat_cons_ne h3]
    rfl

theorem intCell_of_isInt {v : ℚ} (h : v.isInt = true) : ∃ z : ℤ, v = (z : ℚ) := by
  refine ⟨v.num, ?_⟩
  have hd : v.den = 1 := by simpa [Rat.isInt] using h
  rw [← Rat.num_div_den v, hd]
  simp

theorem int_cells_of_all (xs : List Cell)
    (h : xs.all (fun c =>
      match numCell c with
      | some v => v.isInt
      | none => false) = true) :
    ∀ c ∈ xs, ∃ z : ℤ, numCell c = some (z : ℚ) := by
  intro c hc
  have hb := (List.all_eq_true.mp h) c hc
  cases hnc : numCell c with
  | none => rw [hnc] at hb; simp at hb
  | some v =>
    rw [hnc] at hb
    obtain ⟨z, hz⟩ := intCell_of_isInt (by simpa using hb)
    exact ⟨z, by rw [hz]⟩

theorem pos_int_cells_of_all (xs : List Cell)
    (h : xs.all (fun c =>
      match numCell c with
      | some v => v.isInt && decide (1 ≤ v)
      | none => false) = true) :
    ∀ c ∈ xs, ∃ z : ℤ, 1 ≤ z ∧ numCell c = some (z : ℚ) := by
  intro c hc
  have hb := (List.all_eq_true.mp h) c hc
  cases hnc : numCell c with
  | none => rw [hnc] at hb; simp at hb
  | some v =>
    rw [hnc] at hb
    simp only [Bool.and_eq_true, decide_eq_true_eq] at hb
    obtain ⟨z, hz⟩ := intCell_of_isInt hb.1
    refine ⟨z, ?_, by rw [hz]⟩
    have := hb.2
    rw [hz] at this
    exact_mod_cast this

/-- C6 (amended): on a non-empty table with data-model-conforming values
(integer Strokes and Par), each non-empty par group's
par-or-better / bogey / double-bogey-plus percentages sum to 100; the
putting 1-putt / 2-putt / 3-plus-putt percentages sum to 100 provided
every hole has an integer number of putts at least 1 — a zero-putt hole
falls in none of the three buckets, so without that proviso the putting
triple can sum to less than 100. -/
theorem percent_triples_sum_100 (t : Table) (hne : t.rows ≠ [])
    (hpar : "Par" ∈ t.schema) (hs : "Strokes" ∈ t.schema)
    (hsc : "Score" ∈ t.schema) (hpt : "Putts" ∈ t.schema)
    (hg : "GIR" ∈ t.schema) (hsh : "Shots" ∈ t.schema)
    (hint_s : ∀ c ∈ colOf t "Strokes", ∃ z : ℤ, numCell c = some (z : ℚ))
    (hint_p : ∀ c ∈ colOf t "Par", ∃ z : ℤ, numCell c = some (z : ℚ))
    (hint_putts : ∀ c ∈ colOf t "Putts", ∃ z : ℤ, 1 ≤ z ∧ numCell c = some (z : ℚ)) :
    (∀ p : ℕ, p ∈ ([3, 4, 5] : List ℕ) →
      parGroup (colOf t "Par") (seriesSub (colOf t "Strokes") (colOf t "Par")) (p : ℚ) ≠ [] →
      ∃ m t2 a b c, calculate_scoring_stats t = Except.ok (m, t2) ∧
        findStat m (parKey p "_par_or_better_pct") = some (StatVal.num a) ∧
        findStat m (parKey p "_bogey_pct") = some (StatVal.num b) ∧
        findStat m (parKey p "_double_bogey_plus_pct") = some (StatVal.num c) ∧
        a + b + c = 100) ∧
    (∃ m t2 a b c, calculate_putting_stats t = Except.ok (m, t2) ∧
      findStat m "1_putt_pct" = some (StatVal.num a) ∧
      findStat m "2_putt_pct" = some (StatVal.num b) ∧
      findStat m "3_plus_putt_pct" = some (StatVal.num c) ∧
      a + b + c = 100) := by
  constructor
  · intro p hp hgroup
    have hintg : ∀ c ∈ parGroup (colOf t "Par")
        (seriesSub (colOf t "Strokes") (colOf t "Par")) (p : ℚ),
        ∃ z : ℤ, numCell c = some (z : ℚ) :=
      fun c hc => seriesSub_int (colOf t "Strokes") (colOf t "Par")
        hint_s hint_p c (parGroup_mem hc)
    simp only [List.mem_cons, List.not_mem_nil, or_false] at hp
    rcases hp with rfl | rfl | rfl
    · obtain ⟨a, b, c, hfa, hfb, hfc, habc⟩ :=
        svpSection_triple (colOf t "Par")
          (seriesSub (colOf t "Strokes") (colOf t "Par")) 3 hgroup hintg
      refine ⟨_, _, a, b, c, scoring_ok_form t hne hpar hs hsc, ?_, ?_, ?_, habc⟩
      · simp only [List.cons_append, List.nil_append]
        rw [findStat_cons_ne (by decide), findStat_cons_ne (by decide),
          findStat_cons_ne (by decide), findStat_cons_ne (by decide),
          List.append_assoc]
        exact findStat_append_some _ hfa
      · simp only [List.cons_append, List.nil_append]
        rw [findStat_cons_ne (by decide), findStat_cons_ne (by decide),
          findStat_cons_ne (by decide), findStat_cons_ne (by decide),
          List.append_assoc]
        exact findStat_append_some _ hfb
      · simp only [List.cons_append, List.nil_append]
        rw [findStat_cons_ne (by decide), findStat_cons_ne (by decide),
          findStat_cons_ne (by decide), findStat_cons_ne (by decide),
          List.append_assoc]
        exact findStat_append_some _ hfc
    · obtain ⟨a, b, c, hfa, hfb, hfc, habc⟩ :=
        svpSection_triple (colOf t "Par")
          (seriesSub (colOf t "Strokes") (colOf t "Par")) 4 hgroup hintg
      refine ⟨_, _, a, b, c, scoring_ok_form t hne hpar hs hsc, ?_, ?_, ?_, habc⟩
      · simp only [List.cons_append, List.nil_append]
        rw [findStat_cons_ne (by decide), findStat_cons_ne (by decide),
          findStat_cons_ne (by decide), findStat_cons_ne (by decide),
          List.append_assoc,
          findStat_append_none _ (findStat_svpSection_none _ _ 3 _
            (by decide) (by decide) (by decide)),
          List.append_assoc]
        exact findStat_append_some _ hfa
      · simp only [List.cons_append, List.nil_append]
        rw [findStat_cons_ne (by decide), findStat_cons_ne (by decide),
          findStat_cons_ne (by decide), findStat_cons_ne (by decide),
          List.append_assoc,
          findStat_append_none _ (findStat_svpSection_none _ _ 3 _
            (by decide) (by decide) (by decide)),
          List.append_assoc]
        exact findStat_append_some _ hfb
      · simp only [List.cons_append, List.nil_append]
        rw [findStat_cons_ne (by decide), findStat_cons_ne (by decide),
          findStat_cons_ne (by decide), findStat_cons_ne (by decide),
          List.append_assoc,
          findStat_append_none _ (findStat_svpSection_none _ _ 3 _
            (by decide) (by decide) (by decide)),
          List.append_assoc]
        exact findStat_append_some _ hfc
    · obtain ⟨a, b, c, hfa, hfb, hfc, habc⟩ :=
        svpSection_triple (colOf t "Par")
          (seriesSub (colOf t "Strokes") (colOf t "Par")) 5 hgroup hintg
      refine ⟨_, _, a, b, c, scoring_ok_form t hne hpar hs hsc, ?_, ?_, ?_, habc⟩
      · simp only [List.cons_append, List.nil_append]
        rw [findStat_cons_ne (by decide), findStat_cons_ne (by decide),
          findStat_cons_ne (by decide), findStat_cons_ne (by decide),
          List.append_assoc,
          findStat_append_none _ (findStat_svpSection_none _ _ 3 _
            (by decide) (by decide) (by decide)),
          List.append_assoc,
          findStat_append_none _ (findStat_svpSection_none _ _ 4 _
            (by decide) (by decide) (by decide))]
        exact findStat_append_some _ hfa
      · simp only [List.cons_append, List.nil_append]
        rw [findStat_cons_ne (by decide), findStat_cons_ne (by decide),
          findStat_cons_ne (by decide), findStat_cons_ne (by decide),
          List.append_assoc,
          findStat_append_none _ (findStat_svpSection_none _ _ 3 _
            (by decide) (by decide) (by decide)),
          List.append_assoc,
          findStat_append_none _ (findStat_svpSection_none _ _ 4 _
            (by decide) (by decide) (by decide))]
        exact findStat_append_some _ hfb
      · simp only [List.cons_append, List.nil_append]
        rw [findStat_cons_ne (by decide), findStat_cons_ne (by decide),
          findStat_cons_ne (by decide), findStat_cons_ne (by decide),
          List.append_assoc,
          findStat_append_none _ (findStat_svpSection_none _ _ 3 _
            (by decide) (by decide) (by decide)),
          List.append_assoc,
          findStat_append_none _ (findStat_svpSection_none _ _ 4 _
            (by decide) (by decide) (by decide))]
        exact findStat_append_some _ hfc
  · have hn0 : t.rows.length ≠ 0 := by
      simpa [List.length_eq_zero] using hne
    have hsum := countNum_partition_putts (colOf t "Putts") hint_putts
    rw [colOf_length] at hsum
    refine ⟨_, _, _, _, _, putting_ok_form t hne hpt hg hs hpar hsh,
      ?_, ?_, ?_, triple_div_sum_100 hn0 hsum⟩
    · simp only [puttingBase, List.cons_append, List.nil_append]
      rw [findStat_cons_ne (by decide), findStat_cons_ne (by decide)]
      exact findStat_cons_eq
    · simp only [puttingBase, List.cons_append, List.nil_append]
      rw [findStat_cons_ne (by decide), findStat_cons_ne (by decide),
        findStat_cons_ne (by decide)]
      exact findStat_cons_eq
    · simp only [puttingBase, List.cons_append, List.nil_append]
      rw [findStat_cons_ne (by decide), findStat_cons_ne (by decide),
        findStat_cons_ne (by decide), findStat_cons_ne (by decide)]
      exact findStat_cons_eq

/-- A data-model-conforming table with one hole on which the approach shot
was holed: Par 4, Strokes 3, Putts 0 (Putts ≤ Strokes, Strokes ≥ 1). -/
def cex6T : Table :=
  ⟨[ "Par", "Strokes", "Score", "Shots", "FIR", "Tee Shot Location",
     "Tee Shot Distance", "GIR", "Approach Location", "Putts",
     "Shots Inside 100y" ],
   [ [vN 4, vN 3, vN 3, vN 1, vN 1, vS "Fairway", vN 250, vN 1, vS "Green",
      vN 0, vN 0] ]⟩

/-- C6 counterexample: on a valid table with a single zero-putt hole the
Putting Aggregator's three putt-distribution percentages are 0, 0 and 0,
so the triple sums to 0, not 100. -/
theorem putt_triple_counterexample :
    ∃ m t2, calculate_putting_stats cex6T = Except.ok (m, t2) ∧
      findStat m "1_putt_pct" = some (StatVal.num 0) ∧
      findStat m "2_putt_pct" = some (StatVal.num 0) ∧
      findStat m "3_plus_putt_pct" = some (StatVal.num 0) ∧
      (0 : ℚ) + 0 + 0 ≠ 100 := by
  have hlen : ((cex6T.rows.length : ℕ) : ℚ) = 1 := rfl
  refine ⟨_, _, putting_ok_form cex6T (by decide) (by decide) (by decide)
    (by decide) (by decide) (by decide), ?_, ?_, ?_, by norm_num⟩
  · simp only [puttingBase, List.cons_append, List.nil_append]
    rw [findStat_cons_ne (by decide), findStat_cons_ne (by decide),
      findStat_cons_eq,
      show countNum (colOf cex6T "Putts") (fun v => decide (v = 1)) = 0 from by decide,
      hlen]
    norm_num
  · simp only [puttingBase, List.cons_append, List.nil_append]
    rw [findStat_cons_ne (by decide), findStat_cons_ne (by decide),
      findStat_cons_ne (by decide), findStat_cons_eq,
      show countNum (colOf cex6T "Putts") (fun v => decide (v = 2)) = 0 from by decide,
      hlen]
    norm_num
  · simp only [puttingBase, List.cons_append, List.nil_append]
    rw [findStat_cons_ne (by decide), findStat_cons_ne (by decide),
      findStat_cons_ne (by decide), findStat_cons_ne (by decide), findStat_cons_eq,
      show countNum (colOf cex6T "Putts") (fun v => decide (3 ≤ v)) = 0 from by decide,
      hlen]
    norm_num

/-- C6 witness: the amended theorem applied to the sample table, whose
Strokes, Par and Putts values are integers with every Putts at least 1. -/
theorem percent_triples_sum_100_witness :
    (∀ p : ℕ, p ∈ ([3, 4, 5] : List ℕ) →
      parGroup (colOf sampleT "Par")
        (seriesSub (colOf sampleT "Strokes") (colOf sampleT "Par")) (p : ℚ) ≠ [] →
      ∃ m t2 a b c, calculate_scoring_stats sampleT = Except.ok (m, t2) ∧
        findStat m (parKey p "_par_or_better_pct") = some (StatVal.num a) ∧
        findStat m (parKey p "_bogey_pct") = some (StatVal.num b) ∧
        findStat m (parKey p "_double_bogey_plus_pct") = some (StatVal.num c) ∧
        a + b + c = 100) ∧
    (∃ m t2 a b c, calculate_putting_stats sampleT = Except.ok (m, t2) ∧
      findStat m "1_putt_pct" = some (StatVal.num a) ∧
      findStat m "2_putt_pct" = some (StatVal.num b) ∧
      findStat m "3_plus_putt_pct" = some (StatVal.num c) ∧
      a + b + c = 100) :=
  percent_triples_sum_100 sampleT (by decide) (by decide) (by decide)
    (by decide) (by decide) (by decide) (by decide)
    (int_cells_of_all _ (by decide)) (int_cells_of_all _ (by decide))
    (pos_int_cells_of_all _ (by decide))

theorem parGroup_eq_nil {keys : List Cell} {p : ℚ}
    (h : keys.countP (fun c => decide (numCell c = some p)) = 0) :
    ∀ vals : List Cell, parGroup keys vals p = [] := by
  induction keys with
  | nil =>
    intro vals
    simp [parGroup]
  | cons a keys ih =>
    intro vals
    cases vals with
    | nil => simp [parGroup]
    | cons v vals =>
      rw [List.countP_cons] at h
      by_cases ha : numCell a = some p
      · simp [ha] at h
      · simp only [parGroup, List.zip_cons_cons, List.filterMap_cons,
          if_neg ha]
        have h0 : keys.countP (fun c => decide (numCell c = some p)) = 0 := by
          rw [decide_eq_false ha] at h
          simpa using h
        exact ih h0 vals

theorem avgStrokesStat_empty {parCol strokesCol : List Cell} {p : ℚ}
    (h : parGroup parCol strokesCol p = []) :
    avgStrokesStat parCol strokesCol p = StatVal.num 0 := by
  simp [avgStrokesStat, h]

theorem scoreVsParSection_empty {parCol svp : List Cell} {q : Nat}
    (h : parGroup parCol svp (q : ℚ) = []) :
    scoreVsParSection parCol svp q = [] := by
  simp [scoreVsParSection, h]

theorem stablefordSection_empty {parCol score : List Cell} {q : Nat}
    (h : parGroup parCol score (q : ℚ) = []) :
    stablefordSection parCol score q = [] := by
  simp [stablefordSection, h]

/-- Lookup of a foreign key in a Stableford section is always `none`. -/
theorem findStat_sbSection_none (parCol score : List Cell) (q : Nat) (k : String)
    (h1 : parKey q "_2_plus_points_pct" ≠ k) (h2 : parKey q "_1_point_pct" ≠ k)
    (h3 : parKey q "_0_points_pct" ≠ k) :
    findStat (stablefordSection parCol score q) k = none := by
  unfold stablefordSection
  by_cases hgrp : (parGroup parCol score (q : ℚ)).isEmpty = true
  · rw [if_pos hgrp]
    rfl
  · rw [if_neg hgrp]
    rw [findStat_cons_ne h1, findStat_cons_ne h2, findStat_cons_ne h3]
    rfl

/-- C3 counterexample: on a table with one par-4 hole (zero par-3 holes),
the Scoring Aggregator's output does contain a key for par type 3:
`avg_strokes_par_3` is present with value 0. -/
theorem scoring_zero_group_key_counterexample :
    ∃ m t2, calculate_scoring_stats cex6T = Except.ok (m, t2) ∧
      (colOf cex6T "Par").countP (fun c => decide (numCell c = some (3 : ℚ))) = 0 ∧
      findStat m "avg_strokes_par_3" = some (StatVal.num 0) := by
  refine ⟨_, _, scoring_ok_form cex6T (by decide) (by decide) (by decide)
    (by decide), by decide, ?_⟩
  simp only [List.cons_append, List.nil_append]
  rw [findStat_cons_eq, avgStrokesStat_empty (by decide)]

/-- C3 (amended): on a non-empty table, a par type with zero holes
contributes none of its six distribution keys, but its
`avg_strokes_par_N` key is still present, holding the default 0 — so for
the average-strokes statistics a 0 value, not a missing key, is what
signals "no data". -/
theorem scoring_empty_group_keys (t : Table) (hne : t.rows ≠ [])
    (hpar : "Par" ∈ t.schema) (hs : "Strokes" ∈ t.schema)
    (hsc : "Score" ∈ t.schema) :
    ∀ p : ℕ, p ∈ ([3, 4, 5] : List ℕ) →
      (colOf t "Par").countP (fun c => decide (numCell c = some (p : ℚ))) = 0 →
      ∃ m t2, calculate_scoring_stats t = Except.ok (m, t2) ∧
        findStat m (parKey p "_par_or_better_pct") = none ∧
        findStat m (parKey p "_bogey_pct") = none ∧
        findStat m (parKey p "_double_bogey_plus_pct") = none ∧
        findStat m (parKey p "_2_plus_points_pct") = none ∧
        findStat m (parKey p "_1_point_pct") = none ∧
        findStat m (parKey p "_0_points_pct") = none ∧
        findStat m ("avg_strokes_par_" ++ toString p) = some (StatVal.num 0) := by
  intro p hp hzero
  have hsec : scoreVsParSection (colOf t "Par")
      (seriesSub (colOf t "Strokes") (colOf t "Par")) p = [] :=
    scoreVsParSection_empty
      (parGroup_eq_nil hzero (seriesSub (colOf t "Strokes") (colOf t "Par")))
  have hsb : stablefordSection (colOf t "Par") (colOf t "Score") p = [] :=
    stablefordSection_empty (parGroup_eq_nil hzero (colOf t "Score"))
  have havg : avgStrokesStat (colOf t "Par") (colOf t "Strokes") (p : ℚ)
      = StatVal.num 0 :=
    avgStrokesStat_empty (parGroup_eq_nil hzero (colOf t "Strokes"))
  simp only [List.mem_cons, List.not_mem_nil, or_false] at hp
  rcases hp with rfl | rfl | rfl
  · refine ⟨_, _, scoring_ok_form t hne hpar hs hsc, ?_, ?_, ?_, ?_, ?_, ?_, ?_⟩ <;>
      simp only [hsec, hsb, List.cons_append, List.nil_append, List.append_nil,
        List.append_assoc]
    · rw [findStat_cons_ne (by decide), findStat_cons_ne (by decide),
        findStat_cons_ne (by decide), findStat_cons_ne (by decide),
        findStat_append_none _ (findStat_svpSection_none _ _ 4 _
          (by decide) (by decide) (by decide)),
        findStat_append_none _ (findStat_svpSection_none _ _ 5 _
          (by decide) (by decide) (by decide)),
        findStat_append_none _ (findStat_sbSection_none _ _ 4 _
          (by decide) (by decide) (by decide))]
      exact findStat_sbSection_none _ _ 5 _ (by decide) (by decide) (by decide)
    · rw [findStat_cons_ne (by decide), findStat_cons_ne (by decide),
        findStat_cons_ne (by decide), findStat_cons_ne (by decide),
        findStat_append_none _ (findStat_svpSection_none _ _ 4 _
          (by decide) (by decide) (by decide)),
        findStat_append_none _ (findStat_svpSection_none _ _ 5 _
          (by decide) (by decide) (by decide)),
        findStat_append_none _ (findStat_sbSection_none _ _ 4 _
          (by decide) (by decide) (by decide))]
      exact findStat_sbSection_none _ _ 5 _ (by decide) (by decide) (by decide)
    · rw [findStat_cons_ne (by decide), findStat_cons_ne (by decide),
        findStat_cons_ne (by decide), findStat_cons_ne (by decide),
        findStat_append_none _ (findStat_svpSection_none _ _ 4 _
          (by decide) (by decide) (by decide)),
        findStat_append_none _ (findStat_svpSection_none _ _ 5 _
          (by decide) (by decide) (by decide)),
        findStat_append_none _ (findStat_sbSection_none _ _ 4 _
          (by decide) (by decide) (by decide))]
      exact findStat_sbSection_none _ _ 5 _ (by decide) (by decide) (by decide)
    · rw [findStat_cons_ne (by decide), findStat_cons_ne (by decide),
        findStat_cons_ne (by decide), findStat_cons_ne (by decide),
        findStat_append_none _ (findStat_svpSection_none _ _ 4 _
          (by decide) (by decide) (by decide)),
        findStat_append_none _ (findStat_svpSection_none _ _ 5 _
          (by decide) (by decide) (by decide)),
        findStat_append_none _ (findStat_sbSection_none _ _ 4 _
          (by decide) (by decide) (by decide))]
      exact findStat_sbSection_none _ _ 5 _ (by decide) (by decide) (by decide)
    · rw [findStat_cons_ne (by decide), findStat_cons_ne (by decide),
        findStat_cons_ne (by decide), findStat_cons_ne (by decide),
        findStat_append_none _ (findStat_svpSection_none _ _ 4 _
          (by decide) (by decide) (by decide)),
        findStat_append_none _ (findStat_svpSection_none _ _ 5 _
          (by decide) (by decide) (by decide)),
        findStat_append_none _ (findStat_sbSection_none _ _ 4 _
          (by decide) (by decide) (by decide))]
      exact findStat_sbSection_none _ _ 5 _ (by decide) (by decide) (by decide)
    · rw [findStat_cons_ne (by decide), findStat_cons_ne (by decide),
        findStat_cons_ne (by decide), findStat_cons_ne (by decide),
        findStat_append_none _ (findStat_svpSection_none _ _ 4 _
          (by decide) (by decide) (by decide)),
        findStat_append_none _ (findStat_svpSection_none _ _ 5 _
          (by decide) (by decide) (by decide)),
        findStat_append_none _ (findStat_sbSection_none _ _ 4 _
          (by decide) (by decide) (by decide))]
      exact findStat_sbSection_none _ _ 5 _ (by decide) (by decide) (by decide)
    · rw [show ((3 : ℕ) : ℚ) = (3 : ℚ) from by norm_num] at havg
      rw [show ("avg_strokes_par_" ++ toString 3 : String) = "avg_strokes_par_3"
          from by decide, findStat_cons_eq, havg]
  · refine ⟨_, _, scoring_ok_form t hne hpar hs hsc, ?_, ?_, ?_, ?_, ?_, ?_, ?_⟩ <;>
      simp only [hsec, hsb, List.cons_append, List.nil_append, List.append_nil,
        List.append_assoc]
    · rw [findStat_cons_ne (by decide), findStat_cons_ne (by decide),
        findStat_cons_ne (by decide), findStat_cons_ne (by decide),
        findStat_append_none _ (findStat_svpSection_none _ _ 3 _
          (by decide) (by decide) (by decide)),
        findStat_append_none _ (findStat_svpSection_none _ _ 5 _
          (by decide) (by decide) (by decide)),
        findStat_append_none _ (findStat_sbSection_none _ _ 3 _
          (by decide) (by decide) (by decide))]
      exact findStat_sbSection_none _ _ 5 _ (by decide) (by decide) (by decide)
    · rw [findStat_cons_ne (by decide), findStat_cons_ne (by decide),
        findStat_cons_ne (by decide), findStat_cons_ne (by decide),
        findStat_append_none _ (findStat_svpSection_none _ _ 3 _
          (by decide) (by decide) (by decide)),
        findStat_append_none _ (findStat_svpSection_none _ _ 5 _
          (by decide) (by decide) (by decide)),
        findStat_append_none _ (findStat_sbSection_none _ _ 3 _
          (by decide) (by decide) (by decide))]
      exact findStat_sbSection_none _ _ 5 _ (by decide) (by decide) (by decide)
    · rw [findStat_cons_ne (by decide), findStat_cons_ne (by decide),
        findStat_cons_ne (by decide), findStat_cons_ne (by decide),
        findStat_append_none _ (findStat_svpSection_none _ _ 3 _
          (by decide) (by decide) (by decide)),
        findStat_append_none _ (findStat_svpSection_none _ _ 5 _
          (by decide) (by decide) (by decide)),
        findStat_append_none _ (findStat_sbSection_none _ _ 3 _
          (by decide) (by decide) (by decide))]
      exact findStat_sbSection_none _ _ 5 _ (by decide) (by decide) (by decide)
    · rw [findStat_cons_ne (by decide), findStat_cons_ne (by decide),
        findStat_cons_ne (by decide), findStat_cons_ne (by decide),
        findStat_append_none _ (findStat_svpSection_none _ _ 3 _
          (by decide) (by decide) (by decide)),
        findStat_append_none _ (findStat_svpSection_none _ _ 5 _
          (by decide) (by decide) (by decide)),
        findStat_append_none _ (findStat_sbSection_none _ _ 3 _
          (by decide) (by decide) (by decide))]
      exact findStat_sbSection_none _ _ 5 _ (by decide) (by decide) (by decide)
    · rw [findStat_cons_ne (by decide), findStat_cons_ne (by decide),
        findStat_cons_ne (by decide), findStat_cons_ne (by decide),
        findStat_append_none _ (findStat_svpSection_none _ _ 3 _
          (by decide) (by decide) (by decide)),
        findStat_append_none _ (findStat_svpSection_none _ _ 5 _
          (by decide) (by decide) (by decide)),
        findStat_append_none _ (findStat_sbSection_none _ _ 3 _
          (by decide) (by decide) (by decide))]
      exact findStat_sbSection_none _ _ 5 _ (by decide) (by decide) (by decide)
    · rw [findStat_cons_ne (by decide), findStat_cons_ne (by decide),
        findStat_cons_ne (by decide), findStat_cons_ne (by decide),
        findStat_append_none _ (findStat_svpSection_none _ _ 3 _
          (by decide) (by decide) (by decide)),
        findStat_append_none _ (findStat_svpSection_none _ _ 5 _
          (by decide) (by decide) (by decide)),
        findStat_append_none _ (findStat_sbSection_none _ _ 3 _
          (by decide) (by decide) (by decide))]
      exact findStat_sbSection_none _ _ 5 _ (by decide) (by decide) (by decide)
    · rw [show ((4 : ℕ) : ℚ) = (4 : ℚ) from by norm_num] at havg
      rw [show ("avg_strokes_par_" ++ toString 4 : String) = "avg_strokes_par_4"
          from by decide, findStat_cons_ne (by decide), findStat_cons_eq, havg]
  · refine ⟨_, _, scoring_ok_form t hne hpar hs hsc, ?_, ?_, ?_, ?_, ?_, ?_, ?_⟩ <;>
      simp only [hsec, hsb, List.cons_append, List.nil_append, List.append_nil,
        List.append_assoc]
    · rw [findStat_cons_ne (by decide), findStat_cons_ne (by decide),
        findStat_cons_ne (by decide), findStat_cons_ne (by decide),
        findStat_append_none _ (findStat_svpSection_none _ _ 3 _
          (by decide) (by decide) (by decide)),
        findStat_append_none _ (findStat_svpSection_none _ _ 4 _
          (by decide) (by decide) (by decide)),
        findStat_append_none _ (findStat_sbSection_none _ _ 3 _
          (by decide) (by decide) (by decide))]
      exact findStat_sbSection_none _ _ 4 _ (by decide) (by decide) (by decide)
    · rw [findStat_cons_ne (by decide), findStat_cons_ne (by decide),
        findStat_cons_ne (by decide), findStat_cons_ne (by decide),
        findStat_append_none _ (findStat_svpSection_none _ _ 3 _
          (by decide) (by decide) (by decide)),
        findStat_append_none _ (findStat_svpSection_none _ _ 4 _
          (by decide) (by decide) (by decide)),
        findStat_append_none _ (findStat_sbSection_none _ _ 3 _
          (by decide) (by decide) (by decide))]
      exact findStat_sbSection_none _ _ 4 _ (by decide) (by decide) (by decide)
    · rw [findStat_cons_ne (by decide), findStat_cons_ne (by decide),
        findStat_cons_ne (by decide), findStat_cons_ne (by decide),
        findStat_append_none _ (findStat_svpSection_none _ _ 3 _
          (by decide) (by decide) (by decide)),
        findStat_append_none _ (findStat_svpSection_none _ _ 4 _
          (by decide) (by decide) (by decide)),
        findStat_append_none _ (findStat_sbSection_none _ _ 3 _
          (by decide) (by decide) (by decide))]
      exact findStat_sbSection_none _ _ 4 _ (by decide) (by decide) (by decide)
    · rw [findStat_cons_ne (by decide), findStat_cons_ne (by decide),
        findStat_cons_ne (by decide), findStat_cons_ne (by decide),
        findStat_append_none _ (findStat_svpSection_none _ _ 3 _
          (by decide) (by decide) (by decide)),
        findStat_append_none _ (findStat_svpSection_none _ _ 4 _
          (by decide) (by decide) (by decide)),
        findStat_append_none _ (findStat_sbSection_none _ _ 3 _
          (by decide) (by decide) (by decide))]
      exact findStat_sbSection_none _ _ 4 _ (by decide) (by decide) (by decide)
    · rw [findStat_cons_ne (by decide), findStat_cons_ne (by decide),
        findStat_cons_ne (by decide), findStat_cons_ne (by decide),
        findStat_append_none _ (findStat_svpSection_none _ _ 3 _
          (by decide) (by decide) (by decide)),
        findStat_append_none _ (findStat_svpSection_none _ _ 4 _
          (by decide) (by decide) (by decide)),
        findStat_append_none _ (findStat_sbSection_none _ _ 3 _
          (by decide) (by decide) (by decide))]
      exact findStat_sbSection_none _ _ 4 _ (by decide) (by decide) (by decide)
    · rw [findStat_cons_ne (by decide), findStat_cons_ne (by decide),
        findStat_cons_ne (by decide), findStat_cons_ne (by decide),
        findStat_append_none _ (findStat_svpSection_none _ _ 3 _
          (by decide) (by decide) (by decide)),
        findStat_append_none _ (findStat_svpSection_none _ _ 4 _
          (by decide) (by decide) (by decide)),
        findStat_append_none _ (findStat_sbSection_none _ _ 3 _
          (by decide) (by decide) (by decide))]
      exact findStat_sbSection_none _ _ 4 _ (by decide) (by decide) (by decide)
    · rw [show ((5 : ℕ) : ℚ) = (5 : ℚ) from by norm_num] at havg
      rw [show ("avg_strokes_par_" ++ toString 5 : String) = "avg_strokes_par_5"
          from by decide, findStat_cons_ne (by decide), findStat_cons_ne (by decide),
        findStat_cons_eq, havg]

theorem scoring_err_par (t : Table) (hne : t.rows ≠ [])
    (h : "Par" ∉ t.schema) : isError (calculate_scoring_stats t) = true := by
  simp [calculate_scoring_stats, isEmpty_false_of_ne hne, isError, bind, Except.bind, pure, Except.pure, getCol_not_mem h]

theorem scoring_err_strokes (t : Table) (hne : t.rows ≠ [])
    (h : "Strokes" ∉ t.schema) : isError (calculate_scoring_stats t) = true := by
  by_cases h1 : "Par" ∈ t.schema
  · simp [calculate_scoring_stats, isEmpty_false_of_ne hne, isError, bind, Except.bind, pure, Except.pure, getCol_mem h1, getCol_not_mem h]
  · simp [calculate_scoring_stats, isEmpty_false_of_ne hne, isError, bind, Except.bind, pure, Except.pure, getCol_not_mem h1]

theorem scoring_err_score (t : Table) (hne : t.rows ≠ [])
    (h : "Score" ∉ t.schema) : isError (calculate_scoring_stats t) = true := by
  by_cases h1 : "Par" ∈ t.schema
  · by_cases h2 : "Strokes" ∈ t.schema
    · simp [calculate_scoring_stats, isEmpty_false_of_ne hne, isError, bind, Except.bind, pure, Except.pure, getCol_mem h1, getCol_mem h2, getCol_not_mem h]
    · simp [calculate_scoring_stats, isEmpty_false_of_ne hne, isError, bind, Except.bind, pure, Except.pure, getCol_mem h1, getCol_not_mem h2]
  · simp [calculate_scoring_stats, isEmpty_false_of_ne hne, isError, bind, Except.bind, pure, Except.pure, getCol_not_mem h1]

theorem approach_err_gir (t : Table) (hne : t.rows ≠ [])
    (h : "GIR" ∉ t.schema) : isError (calculate_approach_stats t) = true := by
  simp [calculate_approach_stats, isEmpty_false_of_ne hne, isError, bind, Except.bind, pure, Except.pure, getCol_not_mem h]

theorem approach_err_strokes (t : Table) (hne : t.rows ≠ [])
    (h : "Strokes" ∉ t.schema) : isError (calculate_approach_stats t) = true := by
  by_cases h1 : "GIR" ∈ t.schema
  · simp [calculate_approach_stats, isEmpty_false_of_ne hne, isError, bind, Except.bind, pure, Except.pure, getCol_mem h1, getCol_not_mem h]
  · simp [calculate_approach_stats, isEmpty_false_of_ne hne, isError, bind, Except.bind, pure, Except.pure, getCol_not_mem h1]

theorem approach_err_putts (t : Table) (hne : t.rows ≠ [])
    (h : "Putts" ∉ t.schema) : isError (calculate_approach_stats t) = true := by
  by_cases h1 : "GIR" ∈ t.schema
  · by_cases h2 : "Strokes" ∈ t.schema
    · simp [calculate_approach_stats, isEmpty_false_of_ne hne, isError, bind, Except.bind, pure, Except.pure, getCol_mem h1, getCol_mem h2, getCol_not_mem h]
    · simp [calculate_approach_stats, isEmpty_false_of_ne hne, isError, bind, Except.bind, pure, Except.pure, getCol_mem h1, getCol_not_mem h2]
  · simp [calculate_approach_stats, isEmpty_false_of_ne hne, isError, bind, Except.bind, pure, Except.pure, getCol_not_mem h1]

theorem approach_err_par (t : Table) (hne : t.rows ≠ [])
    (h : "Par" ∉ t.schema) : isError (calculate_approach_stats t) = true := by
  by_cases h1 : "GIR" ∈ t.schema
  · by_cases h2 : "Strokes" ∈ t.schema
    · by_cases h3 : "Putts" ∈ t.schema
      · simp [calculate_approach_stats, isEmpty_false_of_ne hne, isError, bind, Except.bind, pure, Except.pure, getCol_mem h1, getCol_mem h2, getCol_mem h3, getCol_not_mem h]
      · simp [calculate_approach_stats, isEmpty_false_of_ne hne, isError, bind, Except.bind, pure, Except.pure, getCol_mem h1, getCol_mem h2, getCol_not_mem h3]
    · simp [calculate_approach_stats, isEmpty_false_of_ne hne, isError, bind, Except.bind, pure, Except.pure, getCol_mem h1, getCol_not_mem h2]
  · simp [calculate_approach_stats, isEmpty_false_of_ne hne, isError, bind, Except.bind, pure, Except.pure, getCol_not_mem h1]

theorem approach_err_shots (t : Table) (hne : t.rows ≠ [])
    (h : "Shots" ∉ t.schema) : isError (calculate_approach_stats t) = true := by
  by_cases h1 : "GIR" ∈ t.schema
  · by_cases h2 : "Strokes" ∈ t.schema
    · by_cases h3 : "Putts" ∈ t.schema
      · by_cases h4 : "Par" ∈ t.schema
        · simp [calculate_approach_stats, isEmpty_false_of_ne hne, isError, bind, Except.bind, pure, Except.pure, getCol_mem h1, getCol_mem h2, getCol_mem h3, getCol_mem h4, getCol_not_mem h]
        · simp [calculate_approach_stats, isEmpty_false_of_ne hne, isError, bind, Except.bind, pure, Except.pure, getCol_mem h1, getCol_mem h2, getCol_mem h3, getCol_not_mem h4]
      · simp [calculate_approach_stats, isEmpty_false_of_ne hne, isError, bind, Except.bind, pure, Except.pure, getCol_mem h1, getCol_mem h2, getCol_not_mem h3]
    · simp [calculate_approach_stats, isEmpty_false_of_ne hne, isError, bind, Except.bind, pure, Except.pure, getCol_mem h1, getCol_not_mem h2]
  · simp [calculate_approach_stats, isEmpty_false_of_ne hne, isError, bind, Except.bind, pure, Except.pure, getCol_not_mem h1]

theorem approach_err_apploc (t : Table) (hne : t.rows ≠ [])
    (h : "Approach Location" ∉ t.schema) : isError (calculate_approach_stats t) = true := by
  by_cases h1 : "GIR" ∈ t.schema
  · by_cases h2 : "Strokes" ∈ t.schema
    · by_cases h3 : "Putts" ∈ t.schema
      · by_cases h4 : "Par" ∈ t.schema
        · by_cases h5 : "Shots" ∈ t.schema
          · simp [calculate_approach_stats, isEmpty_false_of_ne hne, isError, bind, Except.bind, pure, Except.pure, getCol_mem h1, getCol_mem h2, getCol_mem h3, getCol_mem h4, getCol_mem h5, getCol_not_mem h]
          · simp [calculate_approach_stats, isEmpty_false_of_ne hne, isError, bind, Except.bind, pure, Except.pure, getCol_mem h1, getCol_mem h2, getCol_mem h3, getCol_mem h4, getCol_not_mem h5]
        · simp [calculate_approach_stats, isEmpty_false_of_ne hne, isError, bind, Except.bind, pure, Except.pure, getCol_mem h1, getCol_mem h2, getCol_mem h3, getCol_not_mem h4]
      · simp [calculate_approach_stats, isEmpty_false_of_ne hne, isError, bind, Except.bind, pure, Except.pure, getCol_mem h1, getCol_mem h2, getCol_not_mem h3]
    · simp [calculate_approach_stats, isEmpty_false_of_ne hne, isError, bind, Except.bind, pure, Except.pure, getCol_mem h1, getCol_not_mem h2]
  · simp [calculate_approach_stats, isEmpty_false_of_ne hne, isError, bind, Except.bind, pure, Except.pure, getCol_not_mem h1]

theorem filterRows_schema (t : Table) (mask : List Bool) :
    (filterRows t mask).schema = t.schema := rfl

theorem short_err_s100 (t : Table) (hne : t.rows ≠ [])
    (h : "Shots Inside 100y" ∉ t.schema) : isError (calculate_short_game_stats t) = true := by
  simp [calculate_short_game_stats, isEmpty_false_of_ne hne, bind, Except.bind, pure, Except.pure, getCol_mem, getCol_not_mem, filterRows_schema, h] <;> (first | rfl | (split <;> (first | rfl | (split <;> rfl))))

theorem short_err_gir (t : Table) (hne : t.rows ≠ [])
    (h : "GIR" ∉ t.schema) : isError (calculate_short_game_stats t) = true := by
  by_cases h1 : "Shots Inside 100y" ∈ t.schema
  · simp [calculate_short_game_stats, isEmpty_false_of_ne hne, bind, Except.bind, pure, Except.pure, getCol_mem, getCol_not_mem, filterRows_schema, h, h1] <;> (first | rfl | (split <;> (first | rfl | (split <;> rfl))))
  · simp [calculate_short_game_stats, isEmpty_false_of_ne hne, bind, Except.bind, pure, Except.pure, getCol_mem, getCol_not_mem, filterRows_schema, h, h1] <;> (first | rfl | (split <;> (first | rfl | (split <;> rfl))))

theorem short_err_strokes (t : Table) (hne : t.rows ≠ [])
    (h : "Strokes" ∉ t.schema) : isError (calculate_short_game_stats t) = true := by
  by_cases h1 : "Shots Inside 100y" ∈ t.schema
  · by_cases h2 : "GIR" ∈ t.schema
    · simp [calculate_short_game_stats, isEmpty_false_of_ne hne, bind, Except.bind, pure, Except.pure, getCol_mem, getCol_not_mem, filterRows_schema, h, h1, h2] <;> (first | rfl | (split <;> (first | rfl | (split <;> rfl))))
    · simp [calculate_short_game_stats, isEmpty_false_of_ne hne, bind, Except.bind, pure, Except.pure, getCol_mem, getCol_not_mem, filterRows_schema, h, h1, h2] <;> (first | rfl | (split <;> (first | rfl | (split <;> rfl))))
  · simp [calculate_short_game_stats, isEmpty_false_of_ne hne, bind, Except.bind, pure, Except.pure, getCol_mem, getCol_not_mem, filterRows_schema, h, h1] <;> (first | rfl | (split <;> (first | rfl | (split <;> rfl))))

theorem short_err_putts (t : Table) (hne : t.rows ≠ [])
    (h : "Putts" ∉ t.schema) : isError (calculate_short_game_stats t) = true := by
  by_cases h1 : "Shots Inside 100y" ∈ t.schema
  · by_cases h2 : "GIR" ∈ t.schema
    · by_cases h3 : "Strokes" ∈ t.schema
      · simp [calculate_short_game_stats, isEmpty_false_of_ne hne, bind, Except.bind, pure, Except.pure, getCol_mem, getCol_not_mem, filterRows_schema, h, h1, h2, h3] <;> (first | rfl | (split <;> (first | rfl | (split <;> rfl))))
      · simp [calculate_short_game_stats, isEmpty_false_of_ne hne, bind, Except.bind, pure, Except.pure, getCol_mem, getCol_not_mem, filterRows_schema, h, h1, h2, h3] <;> (first | rfl | (split <;> (first | rfl | (split <;> rfl))))
    · simp [calculate_short_game_stats, isEmpty_false_of_ne hne, bind, Except.bind, pure, Except.pure, getCol_mem, getCol_not_mem, filterRows_schema, h, h1, h2] <;> (first | rfl | (split <;> (first | rfl | (split <;> rfl))))
  · simp [calculate_short_game_stats, isEmpty_false_of_ne hne, bind, Except.bind, pure, Except.pure, getCol_mem, getCol_not_mem, filterRows_schema, h, h1] <;> (first | rfl | (split <;> (first | rfl | (split <;> rfl))))

theorem short_err_par (t : Table) (hne : t.rows ≠ [])
    (h : "Par" ∉ t.schema) : isError (calculate_short_game_stats t) = true := by
  by_cases h1 : "Shots Inside 100y" ∈ t.schema
  · by_cases h2 : "GIR" ∈ t.schema
    · by_cases h3 : "Strokes" ∈ t.schema
      · by_cases h4 : "Putts" ∈ t.schema
        · simp [calculate_short_game_stats, isEmpty_false_of_ne hne, bind, Except.bind, pure, Except.pure, getCol_mem, getCol_not_mem, filterRows_schema, h, h1, h2, h3, h4] <;> (first | rfl | (split <;> (first | rfl | (split <;> rfl))))
        · simp [calculate_short_game_stats, isEmpty_false_of_ne hne, bind, Except.bind, pure, Except.pure, getCol_mem, getCol_not_mem, filterRows_schema, h, h1, h2, h3, h4] <;> (first | rfl | (split <;> (first | rfl | (split <;> rfl))))
      · simp [calculate_short_game_stats, isEmpty_false_of_ne hne, bind, Except.bind, pure, Except.pure, getCol_mem, getCol_not_mem, filterRows_schema, h, h1, h2, h3] <;> (first | rfl | (split <;> (first | rfl | (split <;> rfl))))
    · simp [calculate_short_game_stats, isEmpty_false_of_ne hne, bind, Except.bind, pure, Except.pure, getCol_mem, getCol_not_mem, filterRows_schema, h, h1, h2] <;> (first | rfl | (split <;> (first | rfl | (split <;> rfl))))
  · simp [calculate_short_game_stats, isEmpty_false_of_ne hne, bind, Except.bind, pure, Except.pure, getCol_mem, getCol_not_mem, filterRows_schema, h, h1] <;> (first | rfl | (split <;> (first | rfl | (split <;> rfl))))

theorem short_err_shots (t : Table) (hne : t.rows ≠ [])
    (h : "Shots" ∉ t.schema) : isError (calculate_short_game_stats t) = true := by
  by_cases h1 : "Shots Inside 100y" ∈ t.schema
  · by_cases h2 : "GIR" ∈ t.schema
    · by_cases h3 : "Strokes" ∈ t.schema
      · by_cases h4 : "Putts" ∈ t.schema
        · by_cases h5 : "Par" ∈ t.schema
          · simp [calculate_short_game_stats, isEmpty_false_of_ne hne, bind, Except.bind, pure, Except.pure, getCol_mem, getCol_not_mem, filterRows_schema, h, h1, h2, h3, h4, h5] <;> (first | rfl | (split <;> (first | rfl | (split <;> rfl))))
          · simp [calculate_short_game_stats, isEmpty_false_of_ne hne, bind, Except.bind, pure, Except.pure, getCol_mem, getCol_not_mem, filterRows_schema, h, h1, h2, h3, h4, h5] <;> (first | rfl | (split <;> (first | rfl | (split <;> rfl))))
        · simp [calculate_short_game_stats, isEmpty_false_of_ne hne, bind, Except.bind, pure, Except.pure, getCol_mem, getCol_not_mem, filterRows_schema, h, h1, h2, h3, h4] <;> (first | rfl | (split <;> (first | rfl | (split <;> rfl))))
      · simp [calculate_short_game_stats, isEmpty_false_of_ne hne, bind, Except.bind, pure, Except.pure, getCol_mem, getCol_not_mem, filterRows_schema, h, h1, h2, h3] <;> (first | rfl | (split <;> (first | rfl | (split <;> rfl))))
    · simp [calculate_short_game_stats, isEmpty_false_of_ne hne, bind, Except.bind, pure, Except.pure, getCol_mem, getCol_not_mem, filterRows_schema, h, h1, h2] <;> (first | rfl | (split <;> (first | rfl | (split <;> rfl))))
  · simp [calculate_short_game_stats, isEmpty_false_of_ne hne, bind, Except.bind, pure, Except.pure, getCol_mem, getCol_not_mem, filterRows_schema, h, h1] <;> (first | rfl | (split <;> (first | rfl | (split <;> rfl))))

theorem driving_err_par (t : Table) (h : "Par" ∉ t.schema) :
    isError (calculate_driving_stats t) = true := by
  simp [calculate_driving_stats, bind, Except.bind, pure, Except.pure,
    getCol_not_mem h] <;> (first | rfl | (split <;> (first | rfl | (split <;> rfl))))

theorem driving_err_fir (t : Table) (hpar : "Par" ∈ t.schema)
    (hne2 : (filterRows t ((colOf t "Par").map inPar45)).rows ≠ [])
    (h : "FIR" ∉ t.schema) : isError (calculate_driving_stats t) = true := by
  simp [calculate_driving_stats, isEmpty_false_of_ne hne2, hpar, bind, Except.bind, pure, Except.pure, getCol_mem, getCol_not_mem, filterRows_schema, h] <;> (first | rfl | (split <;> (first | rfl | (split <;> rfl))))

theorem driving_err_loc (t : Table) (hpar : "Par" ∈ t.schema)
    (hne2 : (filterRows t ((colOf t "Par").map inPar45)).rows ≠ [])
    (h : "Tee Shot Location" ∉ t.schema) : isError (calculate_driving_stats t) = true := by
  by_cases h1 : "FIR" ∈ t.schema
  · simp [calculate_driving_stats, isEmpty_false_of_ne hne2, hpar, bind, Except.bind, pure, Except.pure, getCol_mem, getCol_not_mem, filterRows_schema, h, h1] <;> (first | rfl | (split <;> (first | rfl | (split <;> rfl))))
  · simp [calculate_driving_stats, isEmpty_false_of_ne hne2, hpar, bind, Except.bind, pure, Except.pure, getCol_mem, getCol_not_mem, filterRows_schema, h, h1] <;> (first | rfl | (split <;> (first | rfl | (split <;> rfl))))

theorem driving_err_dist (t : Table) (hpar : "Par" ∈ t.schema)
    (hne2 : (filterRows t ((colOf t "Par").map inPar45)).rows ≠ [])
    (h : "Tee Shot Distance" ∉ t.schema) : isError (calculate_driving_stats t) = true := by
  by_cases h1 : "FIR" ∈ t.schema
  · by_cases h2 : "Tee Shot Location" ∈ t.schema
    · simp [calculate_driving_stats, isEmpty_false_of_ne hne2, hpar, bind, Except.bind, pure, Except.pure, getCol_mem, getCol_not_mem, filterRows_schema, h, h1, h2] <;> (first | rfl | (split <;> (first | rfl | (split <;> rfl))))
    · simp [calculate_driving_stats, isEmpty_false_of_ne hne2, hpar, bind, Except.bind, pure, Except.pure, getCol_mem, getCol_not_mem, filterRows_schema, h, h2] <;> (first | rfl | (split <;> (first | rfl | (split <;> rfl))))
  · simp [calculate_driving_stats, isEmpty_false_of_ne hne2, hpar, bind, Except.bind, pure, Except.pure, getCol_mem, getCol_not_mem, filterRows_schema, h, h1] <;> (first | rfl | (split <;> (first | rfl | (split <;> rfl))))

theorem putting_absent_ok (t : Table) (h : "Putts" ∉ t.schema) :
    calculate_putting_stats t = Except.ok ([], t) := by
  simp [calculate_putting_stats, h, pure, Except.pure]

theorem putting_err_gir (t : Table) (hne : t.rows ≠ [])
    (hpt : "Putts" ∈ t.schema)
    (h : "GIR" ∉ t.schema) : isError (calculate_putting_stats t) = true := by
  simp [calculate_putting_stats, isEmpty_false_of_ne hne, hpt, bind, Except.bind, pure, Except.pure, getCol_mem, getCol_not_mem, filterRows_schema, h] <;> (first | rfl | (split <;> (first | rfl | (split <;> rfl))))

theorem putting_err_strokes (t : Table) (hne : t.rows ≠ [])
    (hpt : "Putts" ∈ t.schema)
    (h : "Strokes" ∉ t.schema) : isError (calculate_putting_stats t) = true := by
  by_cases h1 : "GIR" ∈ t.schema
  · simp [calculate_putting_stats, isEmpty_false_of_ne hne, hpt, bind, Except.bind, pure, Except.pure, getCol_mem, getCol_not_mem, filterRows_schema, h, h1] <;> (first | rfl | (split <;> (first | rfl | (split <;> rfl))))
  · simp [calculate_putting_stats, isEmpty_false_of_ne hne, hpt, bind, Except.bind, pure, Except.pure, getCol_mem, getCol_not_mem, filterRows_schema, h, h1] <;> (first | rfl | (split <;> (first | rfl | (split <;> rfl))))

theorem putting_err_par (t : Table) (hne : t.rows ≠ [])
    (hpt : "Putts" ∈ t.schema)
    (h : "Par" ∉ t.schema) : isError (calculate_putting_stats t) = true := by
  by_cases h1 : "GIR" ∈ t.schema
  · by_cases h2 : "Strokes" ∈ t.schema
    · simp [calculate_putting_stats, isEmpty_false_of_ne hne, hpt, bind, Except.bind, pure, Except.pure, getCol_mem, getCol_not_mem, filterRows_schema, h, h1, h2] <;> (first | rfl | (split <;> (first | rfl | (split <;> rfl))))
    · simp [calculate_putting_stats, isEmpty_false_of_ne hne, hpt, bind, Except.bind, pure, Except.pure, getCol_mem, getCol_not_mem, filterRows_schema, h, h2] <;> (first | rfl | (split <;> (first | rfl | (split <;> rfl))))
  · simp [calculate_putting_stats, isEmpty_false_of_ne hne, hpt, bind, Except.bind, pure, Except.pure, getCol_mem, getCol_not_mem, filterRows_schema, h, h1] <;> (first | rfl | (split <;> (first | rfl | (split <;> rfl))))

theorem putting_err_shots (t : Table) (hne : t.rows ≠ [])
    (hpt : "Putts" ∈ t.schema)
    (h : "Shots" ∉ t.schema) : isError (calculate_putting_stats t) = true := by
  by_cases h1 : "GIR" ∈ t.schema
  · by_cases h2 : "Strokes" ∈ t.schema
    · by_cases h3 : "Par" ∈ t.schema
      · simp [calculate_putting_stats, isEmpty_false_of_ne hne, hpt, bind, Except.bind, pure, Except.pure, getCol_mem, getCol_not_mem, filterRows_schema, h, h1, h2, h3] <;> (first | rfl | (split <;> (first | rfl | (split <;> rfl))))
      · simp [calculate_putting_stats, isEmpty_false_of_ne hne, hpt, bind, Except.bind, pure, Except.pure, getCol_mem, getCol_not_mem, filterRows_schema, h, h3] <;> (first | rfl | (split <;> (first | rfl | (split <;> rfl))))
    · simp [calculate_putting_stats, isEmpty_false_of_ne hne, hpt, bind, Except.bind, pure, Except.pure, getCol_mem, getCol_not_mem, filterRows_schema, h, h2] <;> (first | rfl | (split <;> (first | rfl | (split <;> rfl))))
  · simp [calculate_putting_stats, isEmpty_false_of_ne hne, hpt, bind, Except.bind, pure, Except.pure, getCol_mem, getCol_not_mem, filterRows_schema, h, h1] <;> (first | rfl | (split <;> (first | rfl | (split <;> rfl))))

/-- C1 (amended): for a non-empty table, a required column absent from the
schema makes the aggregator raise (KeyError at its first access) rather
than omit the dependent keys; the Driving Aggregator raises for a missing
Par column on any input and for its other columns once its Par-4/5
restriction is non-empty; only the Putting Aggregator's missing Putts
column is handled, by returning the empty mapping. -/
theorem column_absent_raises (t : Table) (hne : t.rows ≠ []) :
    (("Par" ∉ t.schema ∨ "Strokes" ∉ t.schema ∨ "Score" ∉ t.schema) →
      isError (calculate_scoring_stats t) = true) ∧
    ("Par" ∉ t.schema → isError (calculate_driving_stats t) = true) ∧
    ("Par" ∈ t.schema →
      (filterRows t ((colOf t "Par").map inPar45)).rows ≠ [] →
      ("FIR" ∉ t.schema ∨ "Tee Shot Location" ∉ t.schema ∨
        "Tee Shot Distance" ∉ t.schema) →
      isError (calculate_driving_stats t) = true) ∧
    (("GIR" ∉ t.schema ∨ "Strokes" ∉ t.schema ∨ "Putts" ∉ t.schema ∨
      "Par" ∉ t.schema ∨ "Shots" ∉ t.schema ∨
      "Approach Location" ∉ t.schema) →
      isError (calculate_approach_stats t) = true) ∧
    (("Shots Inside 100y" ∉ t.schema ∨ "GIR" ∉ t.schema ∨
      "Strokes" ∉ t.schema ∨ "Putts" ∉ t.schema ∨ "Par" ∉ t.schema ∨
      "Shots" ∉ t.schema) →
      isError (calculate_short_game_stats t) = true) ∧
    ("Putts" ∉ t.schema → calculate_putting_stats t = Except.ok ([], t)) ∧
    ("Putts" ∈ t.schema →
      ("GIR" ∉ t.schema ∨ "Strokes" ∉ t.schema ∨ "Par" ∉ t.schema ∨
        "Shots" ∉ t.schema) →
      isError (calculate_putting_stats t) = true) := by
  refine ⟨?_, ?_, ?_, ?_, ?_, ?_, ?_⟩
  · intro hmiss
    rcases hmiss with h | h | h
    · exact scoring_err_par t hne h
    · exact scoring_err_strokes t hne h
    · exact scoring_err_score t hne h
  · intro h
    exact driving_err_par t h
  · intro hpar hne2 hmiss
    rcases hmiss with h | h | h
    · exact driving_err_fir t hpar hne2 h
    · exact driving_err_loc t hpar hne2 h
    · exact driving_err_dist t hpar hne2 h
  · intro hmiss
    rcases hmiss with h | h | h | h | h | h
    · exact approach_err_gir t hne h
    · exact approach_err_strokes t hne h
    · exact approach_err_putts t hne h
    · exact approach_err_par t hne h
    · exact approach_err_shots t hne h
    · exact approach_err_apploc t hne h
  · intro hmiss
    rcases hmiss with h | h | h | h | h | h
    · exact short_err_s100 t hne h
    · exact short_err_gir t hne h
    · exact short_err_strokes t hne h
    · exact short_err_putts t hne h
    · exact short_err_par t hne h
    · exact short_err_shots t hne h
  · intro h
    exact putting_absent_ok t h
  · intro hpt hmiss
    rcases hmiss with h | h | h | h
    · exact putting_err_gir t hne hpt h
    · exact putting_err_strokes t hne hpt h
    · exact putting_err_par t hne hpt h
    · exact putting_err_shots t hne hpt h

/-- A one-row table lacking every column but GIR. -/
def cex1T : Table := ⟨["GIR"], [[vN 1]]⟩

/-- A one-row par-4 table with only the Par, Strokes and Putts columns. -/
def cex1T2 : Table := ⟨["Par", "Strokes", "Putts"], [[vN 4, vN 4, vN 2]]⟩

/-- C1 counterexample: on a non-empty table whose Score column is absent
(Par and Strokes present), the Scoring Aggregator raises a KeyError
instead of returning a mapping without the Score-dependent keys. -/
theorem column_absent_raises_counterexample :
    cex1T2.rows ≠ [] ∧ "Score" ∉ cex1T2.schema ∧
    calculate_scoring_stats cex1T2 = Except.error ("KeyError: " ++ "Score") := by
  refine ⟨by decide, by decide, ?_⟩
  simp [calculate_scoring_stats, isEmpty_false_of_ne
      (show cex1T2.rows ≠ [] from by decide),
    getCol_mem (show "Par" ∈ cex1T2.schema from by decide),
    getCol_mem (show "Strokes" ∈ cex1T2.schema from by decide),
    getCol_not_mem (show "Score" ∉ cex1T2.schema from by decide),
    bind, Except.bind, pure, Except.pure]

/-- C1 witness: the amended theorem applied to two concrete tables,
exercising the raising branches of all five aggregators, the Putting
Aggregator's empty-mapping branch for a missing Putts column, and its
raising branch for a missing GIR column with Putts present. -/
theorem column_absent_raises_witness :
    isError (calculate_scoring_stats cex1T) = true ∧
    isError (calculate_driving_stats cex1T) = true ∧
    isError (calculate_approach_stats cex1T) = true ∧
    isError (calculate_short_game_stats cex1T) = true ∧
    calculate_putting_stats cex1T = Except.ok ([], cex1T) ∧
    isError (calculate_driving_stats cex1T2) = true ∧
    isError (calculate_putting_stats cex1T2) = true :=
  ⟨(column_absent_raises cex1T (by decide)).1 (Or.inl (by decide)),
   (column_absent_raises cex1T (by decide)).2.1 (by decide),
   (column_absent_raises cex1T (by decide)).2.2.2.1 (Or.inr (Or.inl (by decide))),
   (column_absent_raises cex1T (by decide)).2.2.2.2.1 (Or.inl (by decide)),
   (column_absent_raises cex1T (by decide)).2.2.2.2.2.1 (by decide),
   (column_absent_raises cex1T2 (by decide)).2.2.1 (by decide) (by decide)
     (Or.inl (by decide)),
   (column_absent_raises cex1T2 (by decide)).2.2.2.2.2.2 (by decide)
     (Or.inl (by decide))⟩

theorem getCol_ok_length {t : Table} {c : String} {xs : List Cell}
    (h : getCol t c = Except.ok xs) : xs.length = t.rows.length := by
  by_cases hm : c ∈ t.schema
  · rw [getCol_mem hm] at h
    obtain rfl := (Except.ok.inj h).symm
    exact colOf_length t c
  · rw [getCol_not_mem hm] at h
    exact absurd h (by simp)

theorem set_getD_ne {r : Row} {i j : Nat} {v : Cell} (hij : i ≠ j) :
    (r.set i v).getD j none = r.getD j none := by
  rw [List.getD_eq_getD_get?, List.getD_eq_getD_get?, List.get?_set_ne v r hij]

theorem zipWith_set_map_getD {i j : Nat} (hij : i ≠ j) :
    ∀ (rows : List Row) (vals : List Cell),
    (List.zipWith (fun r v => r.set i v) rows vals).map (fun r => r.getD j none) =
      (List.zipWith (fun r _ => r) rows vals).map (fun r => r.getD j none) := by
  intro rows
  induction rows with
  | nil => intro vals; rfl
  | cons r rows ih =>
    intro vals
    cases vals with
    | nil => rfl
    | cons v vals =>
      simp only [List.zipWith_cons_cons, List.map_cons, set_getD_ne hij,
        ih vals]

theorem zipWith_append_map_getD {j : Nat} {L : Nat} (hjL : j < L) :
    ∀ (rows : List Row) (vals : List Cell), (∀ r ∈ rows, r.length = L) →
    (List.zipWith (fun r v => r ++ [v]) rows vals).map (fun r => r.getD j none) =
      (List.zipWith (fun r _ => r) rows vals).map (fun r => r.getD j none) := by
  intro rows
  induction rows with
  | nil => intro vals hw; rfl
  | cons r rows ih =>
    intro vals hw
    cases vals with
    | nil => rfl
    | cons v vals =>
      have hr : r.length = L := hw r (List.mem_cons_self r rows)
      simp only [List.zipWith_cons_cons, List.map_cons,
        List.getD_append r [v] none j (by omega),
        ih vals (fun x hx => hw x (List.mem_cons_of_mem r hx))]

theorem zipWith_fst_of_length {α β : Type} (rows : List α) (vals : List β)
    (h : vals.length = rows.length) :
    List.zipWith (fun r _ => r) rows vals = rows := by
  induction rows generalizing vals with
  | nil => rfl
  | cons r rows ih =>
    cases vals with
    | nil => simp at h
    | cons v vals =>
      simp only [List.length_cons, Nat.succ.injEq] at h
      simp [List.zipWith_cons_cons, ih vals h]

theorem setCol_preserves (t : Table) (name : String) (vals : List Cell)
    (hwf : t.wf = true) (hlen : vals.length = t.rows.length) :
    (setCol t name vals).rows.length = t.rows.length ∧
    name ∈ (setCol t name vals).schema ∧
    ∀ c, c ≠ name → getCol (setCol t name vals) c = getCol t c := by
  have hwall : ∀ r ∈ t.rows, r.length = t.schema.length := by
    intro r hr
    have := (List.all_eq_true.mp hwf) r hr
    simpa using this
  by_cases hmem : name ∈ t.schema
  · refine ⟨?_, ?_, ?_⟩
    · simp [setCol, hmem, List.length_zipWith, hlen]
    · simp [setCol, hmem]
    · intro c hc
      by_cases hcm : c ∈ t.schema
      · have hij : t.schema.indexOf name ≠ t.schema.indexOf c := by
          intro he
          have h1 : t.schema.get ⟨t.schema.indexOf name,
              List.indexOf_lt_length.mpr hmem⟩ = name :=
            List.indexOf_get (List.indexOf_lt_length.mpr hmem)
          have h2 : t.schema.get ⟨t.schema.indexOf c,
              List.indexOf_lt_length.mpr hcm⟩ = c :=
            List.indexOf_get (List.indexOf_lt_length.mpr hcm)
          apply hc
          rw [← h2, ← h1]
          congr 1
          exact Fin.ext he.symm
        rw [getCol_mem (show c ∈ (setCol t name vals).schema from by
          simpa [setCol, hmem] using hcm), getCol_mem hcm]
        congr 1
        show colOf (setCol t name vals) c = colOf t c
        simp only [colOf, setCol, if_pos hmem]
        rw [zipWith_set_map_getD hij t.rows vals,
          zipWith_fst_of_length t.rows vals hlen]
      · rw [getCol_not_mem (show c ∉ (setCol t name vals).schema from by
          simpa [setCol, hmem] using hcm), getCol_not_mem hcm]
  · refine ⟨?_, ?_, ?_⟩
    · simp [setCol, hmem, List.length_zipWith, hlen]
    · simp [setCol, hmem]
    · intro c hc
      by_cases hcm : c ∈ t.schema
      · have hcm2 : c ∈ (setCol t name vals).schema := by
          simp [setCol, hmem, List.mem_append, hcm]
        rw [getCol_mem hcm2, getCol_mem hcm]
        congr 1
        show colOf (setCol t name vals) c = colOf t c
        simp only [colOf, setCol, if_neg hmem]
        rw [List.indexOf_append_of_mem hcm,
          zipWith_append_map_getD (List.indexOf_lt_length.mpr hcm) t.rows vals hwall,
          zipWith_fst_of_length t.rows vals hlen]
      · have hcm2 : c ∉ (setCol t name vals).schema := by
          simp [setCol, hmem, List.mem_append, hcm, hc]
        rw [getCol_not_mem hcm2, getCol_not_mem hcm]

/-- C2 (amended): Driving, Approach and Short-Game leave the caller's
table exactly as it was; Scoring and Putting keep the row count and the
content of every other column unchanged but add (or overwrite) a derived
column in the caller's table — `Score vs Par` for Scoring,
`is_handicap_gir` for Putting — whenever they reach the assignment. -/
theorem aggregators_table_mutation (t : Table) (hwf : t.wf = true) :
    (∀ m t2, calculate_driving_stats t = Except.ok (m, t2) → t2 = t) ∧
    (∀ m t2, calculate_approach_stats t = Except.ok (m, t2) → t2 = t) ∧
    (∀ m t2, calculate_short_game_stats t = Except.ok (m, t2) → t2 = t) ∧
    (∀ m t2, calculate_scoring_stats t = Except.ok (m, t2) →
      t2.rows.length = t.rows.length ∧
      (t.rows ≠ [] → "Score vs Par" ∈ t2.schema) ∧
      ∀ c, c ≠ "Score vs Par" → getCol t2 c = getCol t c) ∧
    (∀ m t2, calculate_putting_stats t = Except.ok (m, t2) →
      t2.rows.length = t.rows.length ∧
      ((t.rows ≠ [] ∧ "Putts" ∈ t.schema) → "is_handicap_gir" ∈ t2.schema) ∧
      ∀ c, c ≠ "is_handicap_gir" → getCol t2 c = getCol t c) := by
  refine ⟨?_, ?_, ?_, ?_, ?_⟩
  · intro m t2 h
    simp only [calculate_driving_stats, bind, Except.bind, pure, Except.pure] at h
    repeat' split at h
    all_goals simp_all
  · intro m t2 h
    simp only [calculate_approach_stats, bind, Except.bind, pure, Except.pure] at h
    repeat' split at h
    all_goals simp_all
  · intro m t2 h
    simp only [calculate_short_game_stats, bind, Except.bind, pure, Except.pure] at h
    repeat' split at h
    all_goals simp_all
  · intro m t2 h
    simp only [calculate_scoring_stats, bind, Except.bind, pure, Except.pure] at h
    by_cases hemp : t.rows.isEmpty = true
    · rw [if_pos hemp] at h
      injection h with h1
      injection h1 with hm ht
      refine ⟨by rw [← ht], ?_, fun c hc => by rw [← ht]⟩
      intro hn
      exact absurd (List.isEmpty_iff.mp hemp) hn
    · rw [if_neg hemp] at h
      cases hp : getCol t "Par" with
      | error e =>
        rw [hp] at h
        exact absurd h (by simp)
      | ok parCol =>
        simp only [hp] at h
        cases hsk : getCol t "Strokes" with
        | error e =>
        rw [hsk] at h
        exact absurd h (by simp)
        | ok strokesCol =>
          simp only [hsk] at h
          cases hsc : getCol t "Score" with
          | error e =>
        rw [hsc] at h
        exact absurd h (by simp)
          | ok scoreCol =>
            simp only [hsc] at h
            injection h with h1
            injection h1 with hm ht
            have hlen : (seriesSub strokesCol parCol).length = t.rows.length := by
              simp [seriesSub, List.length_zipWith, getCol_ok_length hp,
                getCol_ok_length hsk]
            obtain ⟨hl, hm2, hcols⟩ := setCol_preserves t "Score vs Par"
              (seriesSub strokesCol parCol) hwf hlen
            exact ⟨by rw [← ht]; exact hl, fun _ => by rw [← ht]; exact hm2,
              fun c hc => by rw [← ht]; exact hcols c hc⟩
  · intro m t2 h
    simp only [calculate_putting_stats, bind, Except.bind, pure, Except.pure] at h
    by_cases hguard : t.rows.isEmpty = true ∨ "Putts" ∉ t.schema
    · rw [if_pos hguard] at h
      injection h with h1
      injection h1 with hm ht
      refine ⟨by rw [← ht], ?_, fun c hc => by rw [← ht]⟩
      intro hcond
      rcases hguard with hg | hg
      · exact absurd (List.isEmpty_iff.mp hg) hcond.1
      · exact absurd hcond.2 hg
    · rw [if_neg hguard] at h
      cases hpu : getCol t "Putts" with
      | error e =>
        rw [hpu] at h
        exact absurd h (by simp)
      | ok puttsCol =>
        simp only [hpu] at h
        cases hg : getCol t "GIR" with
        | error e =>
        rw [hg] at h
        exact absurd h (by simp)
        | ok girCol =>
          simp only [hg] at h
          cases hsk : getCol t "Strokes" with
          | error e =>
        rw [hsk] at h
        exact absurd h (by simp)
          | ok strokesCol =>
            simp only [hsk] at h
            cases hpr : getCol t "Par" with
            | error e =>
        rw [hpr] at h
        exact absurd h (by simp)
            | ok parCol =>
              simp only [hpr] at h
              cases hsh : getCol t "Shots" with
              | error e =>
        rw [hsh] at h
        exact absurd h (by simp)
              | ok shotsCol =>
                simp only [hsh] at h
                injection h with h1
                injection h1 with hm ht
                have hlen : ((seriesLE (seriesSub strokesCol puttsCol)
                    (seriesAdd (seriesMapNum (fun v => v - 2) parCol)
                      shotsCol)).map (fun b => some (Val.bool b))).length
                      = t.rows.length := by
                  simp [seriesLE, seriesSub, seriesAdd, seriesMapNum,
                    List.length_zipWith, getCol_ok_length hpu,
                    getCol_ok_length hsk, getCol_ok_length hpr,
                    getCol_ok_length hsh]
                obtain ⟨hl, hm2, hcols⟩ := setCol_preserves t "is_handicap_gir"
                  _ hwf hlen
                exact ⟨by rw [← ht]; exact hl, fun _ => by rw [← ht]; exact hm2,
                  fun c hc => by rw [← ht]; exact hcols c hc⟩

/-- C2 counterexample: after `calculate_scoring_stats` (and
`calculate_putting_stats`) return, the caller's table has gained a column
(`Score vs Par`, resp. `is_handicap_gir`): its schema is no longer the
schema it had before the call. -/
theorem table_mutation_counterexample :
    (calculate_scoring_stats cex6T).toOption.map (fun r => r.2.schema) =
      some (cex6T.schema ++ ["Score vs Par"]) ∧
    (calculate_putting_stats cex6T).toOption.map (fun r => r.2.schema) =
      some (cex6T.schema ++ ["is_handicap_gir"]) ∧
    cex6T.schema ++ ["Score vs Par"] ≠ cex6T.schema := by
  refine ⟨?_, ?_, by decide⟩
  · rw [scoring_ok_form cex6T (by decide) (by decide) (by decide) (by decide)]
    rfl
  · rw [putting_ok_form cex6T (by decide) (by decide) (by decide) (by decide)
      (by decide) (by decide)]
    rfl

/-- C2 witness: the amended theorem applied to the sample table. -/
theorem aggregators_table_mutation_witness :
    (∀ m t2, calculate_driving_stats sampleT = Except.ok (m, t2) → t2 = sampleT) ∧
    (∀ m t2, calculate_approach_stats sampleT = Except.ok (m, t2) → t2 = sampleT) ∧
    (∀ m t2, calculate_short_game_stats sampleT = Except.ok (m, t2) → t2 = sampleT) ∧
    (∀ m t2, calculate_scoring_stats sampleT = Except.ok (m, t2) →
      t2.rows.length = sampleT.rows.length ∧
      (sampleT.rows ≠ [] → "Score vs Par" ∈ t2.schema) ∧
      ∀ c, c ≠ "Score vs Par" → getCol t2 c = getCol sampleT c) ∧
    (∀ m t2, calculate_putting_stats sampleT = Except.ok (m, t2) →
      t2.rows.length = sampleT.rows.length ∧
      ((sampleT.rows ≠ [] ∧ "Putts" ∈ sampleT.schema) →
        "is_handicap_gir" ∈ t2.schema) ∧
      ∀ c, c ≠ "is_handicap_gir" → getCol t2 c = getCol sampleT c) :=
  aggregators_table_mutation sampleT (by decide)

/-- C3 witness: the amended theorem applied to the one-par-4-hole table,
for par type 3 (zero par-3 holes there). -/
theorem scoring_empty_group_keys_witness :
    ∃ m t2, calculate_scoring_stats cex6T = Except.ok (m, t2) ∧
      findStat m (parKey 3 "_par_or_better_pct") = none ∧
      findStat m (parKey 3 "_bogey_pct") = none ∧
      findStat m (parKey 3 "_double_bogey_plus_pct") = none ∧
      findStat m (parKey 3 "_2_plus_points_pct") = none ∧
      findStat m (parKey 3 "_1_point_pct") = none ∧
      findStat m (parKey 3 "_0_points_pct") = none ∧
      findStat m ("avg_strokes_par_" ++ toString 3) = some (StatVal.num 0) :=
  scoring_empty_group_keys cex6T (by decide) (by decide) (by decide) (by decide)
    3 (by decide) (by decide)
